import Mathlib

/-!
# Shallow embedding of `ml_model.py` (EnergyTwinMatcher)

This file embeds the similarity-matching core of the energy-twin repository:
the preprocessing pipeline (`preprocess_data`), fitting (`fit`), neighbor
search (`find_similar_homes`, backed by scikit-learn's exact Euclidean
`NearestNeighbors`), usage prediction (`predict_energy_usage`) and insight
synthesis (`calculate_insights`, `_generate_recommendation`).

Modelling conventions:
* Python floats are modelled by exact rationals `ℚ` for all data values; the
  only inherently irrational step (the square root inside the Euclidean
  distance and hence inside `similarity = 1/(1+d)`) is modelled over `ℝ`.
* A pandas cell is a `Cell`: a number, a string, a boolean, or absent
  (missing key / NaN).  `pd.to_numeric(errors='coerce')` maps non-coercible
  cells to NaN; NaN is modelled as `Option.none` in numeric columns.
* The scikit-learn `StandardScaler` stores the per-column mean and the
  squared scale (the population variance, with zero variance replaced by 1,
  mirroring sklearn's `_handle_zeros_in_scale`).  Since standardization is
  per-dimension affine, the squared Euclidean distance between two scaled
  rows equals `Σ (uᵢ - vᵢ)² / varAdjᵢ` over the raw (pre-scaled) rows; the
  lemma `scaledDistSq_eq` below proves this identity, and the neighbor
  search is phrased over this rational quantity.
* Typed failures (sklearn `NotFittedError`, `ValueError` for a bad
  `n_neighbors` or NaN input, Python `float()` errors, …) are an `Err`
  value in `Except`.
-/

/-- A Python/pandas cell value: absent (missing key or NaN), a number,
a string, or a boolean. -/
inductive Cell where
  | absent
  | num (q : ℚ)
  | str (s : String)
  | boolv (b : Bool)
deriving DecidableEq, Repr, Inhabited

/-- One building record, with the columns `EnergyTwinMatcher` reads.
`monthlyKwh` stands for the `monthly_kwh`/`monthly_usage` lookup chain
(the code always reads `h.get('monthly_kwh', h.get('monthly_usage'))`,
which collapses to a single optional field), `hasSolarPanel` for the
`has_solar_panel`/`in.has_pv` chain. -/
structure Home where
  sqft : Cell
  bedrooms : Cell
  occupants : Cell
  buildingType : Cell
  heatingFuel : Cell
  coolingType : Cell
  climateZone : Cell
  hasSolarPanel : Cell
  monthlyKwh : Cell
deriving DecidableEq, Repr

/-- Typed failures surfaced by the pipeline. -/
inductive Err where
  | notFitted        -- sklearn `NotFittedError` (scaler/model used before fit)
  | invalidArgument  -- `ValueError` for a non-positive or too-large `n_neighbors`, fit on 0 samples
  | nanInput         -- `ValueError: Input contains NaN` from `kneighbors`
  | indexError       -- list indexing out of range
  | valueError       -- Python `float()` on a non-numeric value
  | zeroDivision     -- `np.average` with weights summing to zero
deriving DecidableEq, Repr

/-- Embeds `pd.to_numeric(x, errors='coerce')` on one cell: numbers pass through,
booleans coerce to 0/1, fully-numeric strings parse (only unsigned decimal
literals are modelled; all other strings coerce to NaN), absent/NaN stays
NaN. -/
def toNumeric : Cell → Option ℚ
  | .absent => none
  | .num q => some q
  | .boolv b => some (if b then 1 else 0)
  | .str s => (s.toNat?).map (fun n => (n : ℚ))

/-- Embeds `.fillna('Unknown').astype(str)` on one cell. -/
def toCategStr : Cell → String
  | .absent => "Unknown"
  | .str s => s
  | .num q => toString q
  | .boolv b => if b then "True" else "False"

/-- Python truthiness of a cell (`if usage:`): `None`, `0` and the empty
string are falsy. -/
def pyTruthy : Cell → Bool
  | .absent => false
  | .num q => decide (q ≠ 0)
  | .str s => decide (s ≠ "")
  | .boolv b => b

/-- Python `float(x)`: numbers and booleans convert; only unsigned decimal
string literals are modelled as parseable, every other string (including
the empty string) raises `ValueError`; `float(None)` raises. -/
def pyFloat : Cell → Except Err ℚ
  | .num q => .ok q
  | .boolv b => .ok (if b then 1 else 0)
  | .str s =>
    match s.toNat? with
    | some n => .ok (n : ℚ)
    | none => .error .valueError
  | .absent => .error .valueError

/-- Python `int(q)`: truncation toward zero. -/
def pyInt (q : ℚ) : ℤ := if 0 ≤ q then ⌊q⌋ else -⌊-q⌋

/-- Sum of a list of rationals. -/
def qsum (l : List ℚ) : ℚ := l.foldr (· + ·) 0

/-- Embeds `np.mean` over rationals (`sum / length`; the empty case, which numpy
turns into NaN, is the junk value `0` and is excluded by hypotheses). -/
def qmean (l : List ℚ) : ℚ := qsum l / l.length

/-- Population variance (`np.var`, ddof = 0), as used by `StandardScaler`. -/
def qvar (l : List ℚ) : ℚ := qsum (l.map (fun x => (x - qmean l) ^ 2)) / l.length

/-- Embeds `np.min` over a list (junk `0` on the empty list, where numpy raises). -/
def qminL : List ℚ → ℚ
  | [] => 0
  | x :: r => r.foldl min x

/-- Embeds `np.max` over a list (junk `0` on the empty list, where numpy raises). -/
def qmaxL : List ℚ → ℚ
  | [] => 0
  | x :: r => r.foldl max x

/-- Embeds `pandas.Series.median` of the present values: sort, take the middle
element (odd length) or the mean of the two middle elements (even length);
`none` when no value is present (all-NaN column). -/
def medianQ (l : List ℚ) : Option ℚ :=
  let s := List.insertionSort (· ≤ ·) l
  let n := s.length
  if n = 0 then none
  else if n % 2 = 1 then s.get? (n / 2)
  else
    match s.get? (n / 2 - 1), s.get? (n / 2) with
    | some a, some b => some ((a + b) / 2)
    | _, _ => none

/-- First-occurrence deduplication (the distinct elements of a list, in
order of first appearance); Python's `set(xs)` contains exactly these
elements, in an unspecified iteration order. -/
def dedupFirst (l : List String) : List String :=
  l.foldl (fun acc x => if x ∈ acc then acc else acc ++ [x]) []

/-- Embeds `sklearn.LabelEncoder` vocabulary: the distinct values in sorted order
(`np.unique`). -/
def classesOf (vals : List String) : List String :=
  List.insertionSort (· ≤ ·) (dedupFirst vals)

/-- Embeds `LabelEncoder.fit_transform` codes: position of each value in the
sorted vocabulary. -/
def encFit (classes : List String) (vals : List String) : List ℚ :=
  vals.map (fun v => (classes.indexOf v : ℚ))

/-- The transform path for one categorical column
(`ml_model.py` lines 67–74): `LabelEncoder.transform` raises `ValueError`
if ANY value of the column is unseen, and the `except` handler then sets
the WHOLE encoded column to 0. -/
def encNoFit (classes : List String) (vals : List String) : List ℚ :=
  if vals.all (fun v => classes.contains v) then
    vals.map (fun v => (classes.indexOf v : ℚ))
  else
    vals.map (fun _ => 0)

/-- The numeric feature cells of a record, in `numeric_features` order
(`in.sqft..ft2`, `in.bedrooms`, `in.occupants`). -/
def numCells (h : Home) : List Cell := [h.sqft, h.bedrooms, h.occupants]

/-- Fit-time fallback when a numeric column's median is NaN
(`ml_model.py` line 53): 1500 for `in.sqft..ft2`, 2 otherwise. -/
def numDefault (i : ℕ) : ℚ := if i = 0 then 1500 else 2

/-- The categorical feature cells, in `categorical_features` order. -/
def catCells (h : Home) : List Cell :=
  [h.buildingType, h.heatingFuel, h.coolingType, h.climateZone]

/-- Embeds `has_solar_encoded` (`ml_model.py` lines 78–84): booleans via
`astype(int)`, the `in.has_pv` string path via `== 'Yes'`, an absent
column via the final `else` branch giving 0; a numeric cell truncates. -/
def solarEncoded : Cell → ℚ
  | .boolv b => if b then 1 else 0
  | .str s => if s = "Yes" then 1 else 0
  | .num q => (pyInt q : ℚ)
  | .absent => 0

/-- The raw string values of categorical column `i` over a batch. -/
def catColVals (batch : List Home) (i : ℕ) : List String :=
  batch.map (fun h => toCategStr ((catCells h).getD i .absent))

/-- The coerced values of numeric column `i` over a batch
(`pd.to_numeric(df[col], errors='coerce')`). -/
def numColVals (batch : List Home) (i : ℕ) : List (Option ℚ) :=
  batch.map (fun h => toNumeric ((numCells h).getD i .absent))

/-- Fit-path numeric columns: impute NaN with the column median, falling
back to `numDefault` when the median itself is NaN
(`ml_model.py` lines 50–54). -/
def fitNumCols (corpus : List Home) : List (List ℚ) :=
  (List.range 3).map (fun i =>
    let vals := numColVals corpus i
    let m := (medianQ (vals.filterMap id)).getD (numDefault i)
    vals.map (fun v => v.getD m))

/-- Fit-path categorical columns: `LabelEncoder.fit_transform`. -/
def fitCatCols (corpus : List Home) : List (List ℚ) :=
  (List.range 4).map (fun i => encFit (classesOf (catColVals corpus i)) (catColVals corpus i))

/-- The solar column. -/
def solarCol (batch : List Home) : List ℚ :=
  batch.map (fun h => solarEncoded h.hasSolarPanel)

/-- All eight fit-path feature columns, in `feature_cols` order
(numeric ++ encoded categoricals ++ solar). -/
def fitCols (corpus : List Home) : List (List ℚ) :=
  fitNumCols corpus ++ fitCatCols corpus ++ [solarCol corpus]

/-- Column-major to row-major conversion for an `n`-record batch. -/
def colsToRows (cols : List (List ℚ)) (n : ℕ) : List (List ℚ) :=
  (List.range n).map (fun r => cols.map (fun c => c.getD r 0))

/-- Like `colsToRows` for columns that may contain NaN. -/
def colsToRowsO (cols : List (List (Option ℚ))) (n : ℕ) : List (List (Option ℚ)) :=
  (List.range n).map (fun r => cols.map (fun c => c.getD r none))

/-- The pre-scaled fitted feature matrix (row `i` belongs to corpus
record `i`). -/
def fitRowsPre (corpus : List Home) : List (List ℚ) :=
  colsToRows (fitCols corpus) corpus.length

/-- Everything `EnergyTwinMatcher` stores after `fit`: the four
`LabelEncoder` vocabularies, the `StandardScaler` statistics (per-column
mean, and squared scale `varAdj` = population variance with 0 replaced by
1), the fitted pre-scaled matrix backing `NearestNeighbors`, and the
stored default `n_neighbors = min(50, n)` (unused by the query paths,
which always pass `n_neighbors` explicitly). -/
structure FitState where
  classes : List (List String)
  means : List ℚ
  varAdj : List ℚ
  fitX : List (List ℚ)
  nDefault : ℕ
deriving DecidableEq, Repr

/-- Embeds `EnergyTwinMatcher.fit` (`ml_model.py` lines 105–123): preprocess with
`fit=True` and build the neighbor index.  Fitting on zero records raises
(`StandardScaler.fit` rejects 0 samples), modelled as `invalidArgument`. -/
def fitMatcher (corpus : List Home) : Except Err FitState :=
  if corpus.isEmpty then .error .invalidArgument
  else
    let cols := fitCols corpus
    .ok
      { classes := (List.range 4).map (fun i => classesOf (catColVals corpus i))
        means := cols.map qmean
        varAdj := cols.map (fun c => let v := qvar c; if v = 0 then 1 else v)
        fitX := fitRowsPre corpus
        nDefault := min 50 corpus.length }

/-- Transform-path numeric columns (`ml_model.py` lines 55–57): the code
RECOMPUTES the median from the transform-time batch
(`df[col].fillna(df[col].median())`) — despite its own comment
"Use pre-fitted median" — so a NaN stays NaN when the whole batch is NaN
in that column, and the imputed value depends on the accompanying rows. -/
def noFitNumCols (batch : List Home) : List (List (Option ℚ)) :=
  (List.range 3).map (fun i =>
    let vals := numColVals batch i
    let m := medianQ (vals.filterMap id)
    vals.map (fun v => v <|> m))

/-- Transform-path categorical columns, using the stored vocabularies. -/
def noFitCatCols (st : FitState) (batch : List Home) : List (List ℚ) :=
  (List.range 4).map (fun i => encNoFit (st.classes.getD i []) (catColVals batch i))

/-- All eight transform-path columns (NaN possible only in the numeric
ones). -/
def noFitCols (st : FitState) (batch : List Home) : List (List (Option ℚ)) :=
  noFitNumCols batch ++ (noFitCatCols st batch).map (List.map some) ++
    [(solarCol batch).map some]

/-- Embeds `preprocess_data(df, fit=False)` up to scaling: the pre-scaled feature
rows of a batch (`NaN` = `none`).  Scaling is a fixed per-dimension affine
map determined by `FitState` (see `scaleRow`), so these rows determine the
scaled output. -/
def noFitRows (st : FitState) (batch : List Home) : List (List (Option ℚ)) :=
  colsToRowsO (noFitCols st batch) batch.length

/-- Embeds `StandardScaler.transform` on one pre-scaled row:
`(x - mean) / sqrt varAdj` per dimension; NaN passes through (the scaler
is configured by sklearn to propagate NaN). -/
noncomputable def scaleRow (st : FitState) (row : List (Option ℚ)) : List (Option ℝ) :=
  List.zipWith3 (fun (m v : ℚ) (x : Option ℚ) =>
    x.map (fun q => ((q : ℝ) - (m : ℝ)) / Real.sqrt (v : ℝ))) st.means st.varAdj row

/-- The full scaled output of `preprocess_data(df, fit=False)`. -/
noncomputable def preprocessNoFit (st : FitState) (batch : List Home) : List (List (Option ℝ)) :=
  (noFitRows st batch).map (scaleRow st)

/-- Squared Euclidean distance between the SCALED images of two pre-scaled
rows, expressed rationally: per dimension `(u - v)² / varAdj` (the means
cancel and `sqrt varAdj` squares back; see `scaledDistSq_eq`). -/
def distSqW (ws us vs : List ℚ) : ℚ :=
  qsum (List.zipWith3 (fun w u v => (u - v) ^ 2 / w) ws us vs)

/-- Attach corpus indices `i, i+1, …` to a list of distances. -/
def withIdx : ℕ → List ℚ → List (ℕ × ℚ)
  | _, [] => []
  | i, d :: ds => (i, d) :: withIdx (i + 1) ds

/-- Sequence a row: `some` of the underlying values when no entry is NaN. -/
def seqRow : List (Option ℚ) → Option (List ℚ)
  | [] => some []
  | none :: _ => none
  | some x :: r => (seqRow r).map (x :: ·)

/-- The (corpus row, squared distance) pairs of a transformed query
against the fitted matrix, in corpus-row order. -/
def neighborPairs (st : FitState) (u : List ℚ) : List (ℕ × ℚ) :=
  withIdx 0 (st.fitX.map (fun r => distSqW st.varAdj u r))

/-- What scikit-learn guarantees about the enumeration `kneighbors`
produces for a query `u` before truncation to `n_neighbors`: it is SOME
arrangement of all (row, squared distance) pairs in non-decreasing
distance order.  The order among exact-distance ties (and hence which
tied rows survive the `n_neighbors` cut) is undocumented and
backend/version-dependent — the repository pins no scikit-learn version —
so the embedding takes the enumeration as a parameter and quantifies over
every valid one, exactly as `commonHeating` does for Python's unspecified
`set` iteration order. -/
def validOrder (st : FitState) (u : List ℚ) (order : List (ℕ × ℚ)) : Prop :=
  List.Perm order (neighborPairs st u) ∧
    List.Pairwise (fun a b : ℕ × ℚ => a.2 ≤ b.2) order

/-- Embeds `NearestNeighbors.kneighbors(u, n_neighbors=m)` on the fitted
matrix, over squared distances: validates `m > 0` (sklearn raises
`ValueError: Expected n_neighbors > 0` first), then rejects NaN in the
query (`ValueError: Input contains NaN`), then requires
`m ≤ n_samples_fit`; the result is the first `m` entries of the backend's
distance-sorted enumeration `order` (see `validOrder` — theorems assume
`validOrder` of `order` and hold for every such enumeration). -/
def kneighborsE (st : FitState) (uRow : List (Option ℚ)) (m : ℤ)
    (order : List (ℕ × ℚ)) : Except Err (List (ℕ × ℚ)) :=
  if m ≤ 0 then .error .invalidArgument
  else
    match seqRow uRow with
    | none => .error .nanInput
    | some _ =>
      if (st.fitX.length : ℤ) < m then .error .invalidArgument
      else .ok (List.take m.toNat order)

/-- Embeds `find_similar_homes` up to record extraction (`ml_model.py` lines
125–146): before `fit` the very first step, `preprocess_data(user_df,
fit=False)`, hits `StandardScaler.transform` and raises sklearn's
`NotFittedError`; otherwise the single-record query batch is transformed,
`k` is clamped to `len(homes_data)` and `kneighbors` is queried.  (The
code also preprocesses `homes_data` and discards the result; that step
cannot fail on a fitted state and is omitted.)  Returns (corpus index,
squared distance) pairs; `order` is the backend's unspecified
distance-sorted enumeration, threaded to `kneighborsE`. -/
def findSimilarIdx (stOpt : Option FitState) (user : Home) (homes : List Home)
    (k : ℤ) (order : List (ℕ × ℚ)) : Except Err (List (ℕ × ℚ)) :=
  match stOpt with
  | none => .error .notFitted
  | some st =>
    let uRow := (noFitRows st [user]).getD 0 []
    kneighborsE st uRow (min k (homes.length : ℤ)) order

/-- Embeds `similarity = 1 / (1 + distance)` (`ml_model.py` line 150). -/
noncomputable def similarity (d : ℝ) : ℝ := 1 / (1 + d)

/-- Similarity as a function of the squared distance: the code's distance
is the Euclidean one, `Real.sqrt` of our rational squared distance. -/
noncomputable def simOfSq (dsq : ℚ) : ℝ := similarity (Real.sqrt (dsq : ℝ))

/-- One entry of the `find_similar_homes` result: a copied record plus its
`similarity_score`. -/
structure TwinResult where
  home : Home
  score : ℝ

/-- Building the result list (`ml_model.py` lines 152–160):
`homes_data[idx]` for each returned index, annotated with the similarity;
an out-of-range index would be a Python `IndexError`. -/
noncomputable def attachHomes (homes : List Home) :
    List (ℕ × ℚ) → Except Err (List TwinResult)
  | [] => .ok []
  | p :: ps =>
    match homes.get? p.1 with
    | none => .error .indexError
    | some h =>
      match attachHomes homes ps with
      | .error e => .error e
      | .ok ts => .ok (⟨h, simOfSq p.2⟩ :: ts)

/-- Embeds `EnergyTwinMatcher.find_similar_homes` (with the backend's
enumeration `order` threaded through). -/
noncomputable def findSimilarHomes (stOpt : Option FitState) (user : Home)
    (homes : List Home) (k : ℤ) (order : List (ℕ × ℚ)) :
    Except Err (List TwinResult) :=
  match findSimilarIdx stOpt user homes k order with
  | .error e => .error e
  | .ok l => attachHomes homes l

/-- Collecting twin usage values (`ml_model.py` lines 173–177): read the
`monthly_kwh`/`monthly_usage` chain, skip falsy values (`None`, `0`, `''`),
convert the rest with `float`. -/
def collectUsages : List TwinResult → Except Err (List ℚ)
  | [] => .ok []
  | t :: ts =>
    if pyTruthy t.home.monthlyKwh then
      match pyFloat t.home.monthlyKwh with
      | .error e => .error e
      | .ok u =>
        match collectUsages ts with
        | .error e => .error e
        | .ok us => .ok (u :: us)
    else collectUsages ts

/-- Sum of a list of reals. -/
noncomputable def rsum (l : List ℝ) : ℝ := l.foldr (· + ·) 0

/-- Embeds `np.average(usages, weights=weights)`:
`Σ wᵢ·uᵢ / Σ wᵢ`, raising `ZeroDivisionError` when the weights sum to 0. -/
noncomputable def npAverage (us : List ℚ) (ws : List ℝ) : Except Err ℝ :=
  if rsum ws = 0 then .error .zeroDivision
  else .ok (rsum (List.zipWith (fun (w : ℝ) (u : ℚ) => w * (u : ℝ)) ws us) / rsum ws)

/-- Embeds `EnergyTwinMatcher.predict_energy_usage` (`ml_model.py` lines
164–186): find twins, collect their truthy usage values, return the fixed
fallback 900 when none exist, otherwise the weighted average whose weights
are the similarity scores of the FIRST `len(usages)` twins
(`similar_homes[:len(usages)]` — not the twins that contributed the
values). -/
noncomputable def predictEnergyUsage (stOpt : Option FitState) (user : Home)
    (homes : List Home) (k : ℤ) (order : List (ℕ × ℚ)) : Except Err ℝ :=
  match findSimilarHomes stOpt user homes k order with
  | .error e => .error e
  | .ok twins =>
    match collectUsages twins with
    | .error e => .error e
    | .ok us =>
      if us = [] then .ok 900
      else npAverage us ((twins.take us.length).map TwinResult.score)

/-- Python `max(candidates, key=fun x => xs.count x)` scanning `candidates`
left to right and keeping the first element whose count strictly exceeds
the running best's; `"Unknown"` is the (unreachable, guarded) empty-set
junk value. -/
def pyMaxCount (xs : List String) : List String → String
  | [] => "Unknown"
  | e :: es => es.foldl (fun best x => if xs.count best < xs.count x then x else best) e

/-- Embeds `common_heating` (`ml_model.py` line 205):
`max(set(heating_types), key=heating_types.count) if heating_types else
'Unknown'`.  Python's `set` iterates its distinct elements in an
UNSPECIFIED (hash-dependent) order, so the embedding takes that iteration
order as the extra argument `setEnum`; an execution of the code
corresponds to some `setEnum` that is a permutation of
`dedupFirst heating_types`. -/
def commonHeating (setEnum : List String) (similar : List Home) : String :=
  let ht := similar.map (fun h => toCategStr h.heatingFuel)
  if ht.isEmpty then "Unknown" else pyMaxCount ht setEnum

/-- Modelled from the spec: the tie-break the spec claims
("ties broken by first occurrence in the twins sequence") — the same
strict-maximum scan but over the distinct values in first-occurrence
order.  Present only for comparison with `commonHeating`. -/
def specCommonHeating (similar : List Home) : String :=
  let ht := similar.map (fun h => toCategStr h.heatingFuel)
  if ht.isEmpty then "Unknown" else pyMaxCount ht (dedupFirst ht)

/-- The four recommendation messages of `_generate_recommendation`
(`ml_model.py` lines 218–227), abstracted to their kind and the integers
interpolated into the f-strings (`int(user_usage)`, `int(avg_usage)`,
`len(similar_homes)`). -/
inductive RecMsg where
  | higher (u a : ℤ)
  | lower (u a : ℤ)
  | typical (u a : ℤ)
  | info (a : ℤ) (n : ℕ)
deriving DecidableEq, Repr

/-- Embeds `EnergyTwinMatcher._generate_recommendation` (`ml_model.py` lines
211–227): `avg = np.mean(usages)`; a truthy user usage is `float`ed and
compared against `avg * 1.2` (strict) and `avg * 0.8` (strict), anything
between falling to the "typical" message; a falsy usage yields the
informational message quoting the twin average and twin count. -/
def genRecommendation (user : Home) (similar : List Home) (usages : List ℚ) :
    Except Err RecMsg :=
  let avg := qmean usages
  if pyTruthy user.monthlyKwh then
    match pyFloat user.monthlyKwh with
    | .error e => .error e
    | .ok u =>
      if avg * (6 / 5) < u then .ok (.higher (pyInt u) (pyInt avg))
      else if u < avg * (4 / 5) then .ok (.lower (pyInt u) (pyInt avg))
      else .ok (.typical (pyInt u) (pyInt avg))
  else .ok (.info (pyInt avg) similar.length)

/-- The usage value `calculate_insights` reads for one twin
(`ml_model.py` line 195): `h.get('monthly_kwh', h.get('monthly_usage',
900))` — the default 900 applies only when the key is absent; a present
value (even 0) is `float`ed as-is. -/
def insightUsage : Cell → Except Err ℚ
  | .absent => .ok 900
  | c => pyFloat c

/-- The usage list of `calculate_insights` (`ml_model.py` lines 193–196). -/
def insightUsages : List Home → Except Err (List ℚ)
  | [] => .ok []
  | h :: hs =>
    match insightUsage h.monthlyKwh with
    | .error e => .error e
    | .ok u =>
      match insightUsages hs with
      | .error e => .error e
      | .ok us => .ok (u :: us)

/-- The aggregate record built by `calculate_insights`. -/
structure Insights where
  avgTwinUsage : ℚ
  minUsage : ℚ
  maxUsage : ℚ
  commonHeat : String
  recommendation : RecMsg
deriving DecidableEq, Repr

/-- Embeds `EnergyTwinMatcher.calculate_insights` (`ml_model.py` lines 188–209),
parametrised like `commonHeating` by the `set` iteration order. -/
def calculateInsights (setEnum : List String) (similar : List Home)
    (user : Home) : Except Err Insights :=
  match insightUsages similar with
  | .error e => .error e
  | .ok us =>
    match genRecommendation user similar us with
    | .error e => .error e
    | .ok r =>
      .ok
        { avgTwinUsage := qmean us
          minUsage := qminL us
          maxUsage := qmaxL us
          commonHeat := commonHeating setEnum similar
          recommendation := r }

/-- All three numeric feature cells of a record are present and coercible
(so the single-record transform path introduces no NaN). -/
def numPresent (h : Home) : Bool :=
  ((numCells h).map toNumeric).all Option.isSome

/-- A concrete record template: `sqft` and usage vary, everything else
fixed and clean. -/
def mkHome (s : ℚ) (u : Cell) : Home :=
  { sqft := .num s
    bedrooms := .num 3
    occupants := .num 2
    buildingType := .str "Single-Family Detached"
    heatingFuel := .str "Natural Gas"
    coolingType := .str "Central AC"
    climateZone := .str "2A"
    hasSolarPanel := .boolv false
    monthlyKwh := u }

/-- Fallback record used only to express `getD`-style lookups. -/
def dfltHome : Home := mkHome 0 .absent

/-- Demo corpus for the median-recomputation bug: two clean records. -/
def corpusA : List Home := [mkHome 10 (.num 900), mkHome 20 (.num 900)]

/-- The state `fit` produces on `corpusA` (see `fitA_ok`). -/
def stA : FitState :=
  { classes := [["Single-Family Detached"], ["Natural Gas"], ["Central AC"], ["2A"]]
    means := [15, 3, 2, 0, 0, 0, 0, 0]
    varAdj := [25, 1, 1, 1, 1, 1, 1, 1]
    fitX := [[10, 3, 2, 0, 0, 0, 0, 0], [20, 3, 2, 0, 0, 0, 0, 0]]
    nDefault := 2 }

/-- A query record whose `in.sqft..ft2` is missing. -/
def rMiss : Home := { mkHome 10 (.num 900) with sqft := .absent }

/-- A companion record that changes what the transform-time batch median
imputes into `rMiss`. -/
def rComp : Home := mkHome 100 (.num 900)

/-- Demo corpus for the identical-query tie: two records with identical
features that differ only in their usage value. -/
def corpusB : List Home := [mkHome 10 (.num 500), mkHome 10 (.num 900)]

/-- The state `fit` produces on `corpusB` (see `fitB_ok`). -/
def stB : FitState :=
  { classes := [["Single-Family Detached"], ["Natural Gas"], ["Central AC"], ["2A"]]
    means := [10, 3, 2, 0, 0, 0, 0, 0]
    varAdj := [1, 1, 1, 1, 1, 1, 1, 1]
    fitX := [[10, 3, 2, 0, 0, 0, 0, 0], [10, 3, 2, 0, 0, 0, 0, 0]]
    nDefault := 2 }

/-- Demo corpus for the weight-pairing bug: `sqft` 11, 11, 9, 9 (so the
scaled `sqft` channel has variance 1) and usages 0, 1200, 600, 600. -/
def corpusC : List Home :=
  [mkHome 11 (.num 0), mkHome 11 (.num 1200), mkHome 9 (.num 600), mkHome 9 (.num 600)]

/-- The state `fit` produces on `corpusC` (see `fitC_ok`). -/
def stC : FitState :=
  { classes := [["Single-Family Detached"], ["Natural Gas"], ["Central AC"], ["2A"]]
    means := [10, 3, 2, 0, 0, 0, 0, 0]
    varAdj := [1, 1, 1, 1, 1, 1, 1, 1]
    fitX := [[11, 3, 2, 0, 0, 0, 0, 0], [11, 3, 2, 0, 0, 0, 0, 0],
             [9, 3, 2, 0, 0, 0, 0, 0], [9, 3, 2, 0, 0, 0, 0, 0]]
    nDefault := 4 }

/-- Query at `sqft` 11: squared distances to `corpusC` are 0, 0, 4, 4. -/
def qC : Home := mkHome 11 .absent

/-- Modelled from the spec claim C6 (for comparison only): identical to
`predictEnergyUsage` except that the weights are the similarity scores of
the twins that CONTRIBUTED a usage value, in twin order. -/
noncomputable def specPredictEnergyUsage (stOpt : Option FitState) (user : Home)
    (homes : List Home) (k : ℤ) (order : List (ℕ × ℚ)) : Except Err ℝ :=
  match findSimilarHomes stOpt user homes k order with
  | .error e => .error e
  | .ok twins =>
    match collectUsages twins with
    | .error e => .error e
    | .ok us =>
      if us = [] then .ok 900
      else npAverage us ((twins.filter (fun t => pyTruthy t.home.monthlyKwh)).map TwinResult.score)

/-- A record with a given heating fuel, all else fixed. -/
def fuelHome (f : String) : Home := { mkHome 10 (.num 900) with heatingFuel := .str f }

/-- Twins with tied heating-fuel counts: Electricity first, 2–2 against
Natural Gas. -/
def twinsC8 : List Home :=
  [fuelHome "Electricity", fuelHome "Natural Gas", fuelHome "Natural Gas",
   fuelHome "Electricity"]

/-- A legitimate `set` iteration order for `twinsC8`'s heating types that
enumerates Natural Gas before Electricity. -/
def enumC8 : List String := ["Natural Gas", "Electricity"]

/-- The strict ordering that claim C2 asserts for the returned list:
strictly ascending distance, with exact-distance ties broken by strictly
ascending corpus index.  The code does NOT guarantee it (see
`c2_counterexample`). -/
def pairLt (a b : ℕ × ℚ) : Prop := a.2 < b.2 ∨ (a.2 = b.2 ∧ a.1 < b.1)

/-- The single-value image of `encNoFit` on a one-record batch (the query
path of `find_similar_homes` always transforms a one-row DataFrame):
the stored code for a seen value, the fallback 0 for an unseen one. -/
def encNoFitSingle (classes : List String) (s : String) : ℚ :=
  if classes.contains s then (classes.indexOf s : ℚ) else 0

/-- The transformed (pre-scaled) feature row of a single query record, as
produced by `preprocess_data([user], fit=False)`; `queryRow_eq` proves it
equal to the `noFitRows` path.  A one-record batch imputes a present
numeric with itself and leaves a missing one NaN (the batch median of a
singleton is the value itself, or NaN). -/
def queryRow (st : FitState) (u : Home) : List (Option ℚ) :=
  [toNumeric u.sqft, toNumeric u.bedrooms, toNumeric u.occupants,
   some (encNoFitSingle (st.classes.getD 0 []) (toCategStr u.buildingType)),
   some (encNoFitSingle (st.classes.getD 1 []) (toCategStr u.heatingFuel)),
   some (encNoFitSingle (st.classes.getD 2 []) (toCategStr u.coolingType)),
   some (encNoFitSingle (st.classes.getD 3 []) (toCategStr u.climateZone)),
   some (solarEncoded u.hasSolarPanel)]

/-- The underlying values of `queryRow` when all numerics are present. -/
def queryVals (st : FitState) (u : Home) : List ℚ :=
  [(toNumeric u.sqft).getD 0, (toNumeric u.bedrooms).getD 0,
   (toNumeric u.occupants).getD 0,
   encNoFitSingle (st.classes.getD 0 []) (toCategStr u.buildingType),
   encNoFitSingle (st.classes.getD 1 []) (toCategStr u.heatingFuel),
   encNoFitSingle (st.classes.getD 2 []) (toCategStr u.coolingType),
   encNoFitSingle (st.classes.getD 3 []) (toCategStr u.climateZone),
   solarEncoded u.hasSolarPanel]

instance {ε α : Type} [DecidableEq ε] [DecidableEq α] : DecidableEq (Except ε α) := by
  intro a b
  cases a <;> cases b
  case error.error e1 e2 => exact decidable_of_iff (e1 = e2) (by simp)
  case error.ok e1 a2 => exact isFalse (by intro h; cases h)
  case ok.error a1 e2 => exact isFalse (by intro h; cases h)
  case ok.ok a1 a2 => exact decidable_of_iff (a1 = a2) (by simp)

/-! ## Supporting lemmas -/

theorem mem_foldl_ins {l acc : List String} {x : String} :
    x ∈ l.foldl (fun a y => if y ∈ a then a else a ++ [y]) acc ↔ x ∈ acc ∨ x ∈ l := by
  induction l generalizing acc with
  | nil => simp
  | cons a l ih =>
    simp only [List.foldl_cons, ih]
    by_cases h : a ∈ acc
    · simp [h]
      constructor
      · rintro (hx | hx)
        · exact Or.inl hx
        · exact Or.inr (Or.inr hx)
      · rintro (hx | hx | hx)
        · exact Or.inl hx
        · exact Or.inl (hx ▸ h)
        · exact Or.inr hx
    · simp [h, List.mem_append, or_assoc]

theorem mem_dedupFirst {l : List String} {x : String} :
    x ∈ dedupFirst l ↔ x ∈ l := by
  unfold dedupFirst
  rw [mem_foldl_ins]
  simp

theorem dedupFirst_ne_nil {l : List String} (h : l ≠ []) : dedupFirst l ≠ [] := by
  obtain ⟨a, t, rfl⟩ := List.exists_cons_of_ne_nil h
  intro hcon
  have : a ∈ dedupFirst (a :: t) := mem_dedupFirst.2 (List.mem_cons_self a t)
  rw [hcon] at this
  exact List.not_mem_nil a this

theorem foldl_maxCount_spec (xs : List String) :
    ∀ (es : List String) (b : String),
      (es.foldl (fun best x => if xs.count best < xs.count x then x else best) b) ∈ b :: es ∧
      ∀ y ∈ b :: es,
        xs.count y ≤
          xs.count (es.foldl (fun best x => if xs.count best < xs.count x then x else best) b) := by
  intro es
  induction es with
  | nil =>
    intro b
    refine ⟨List.mem_cons_self b [], ?_⟩
    intro y hy
    simp only [List.mem_cons, List.not_mem_nil, or_false] at hy
    simp only [List.foldl_nil]
    exact le_of_eq (by rw [hy])
  | cons e es ih =>
    intro b
    simp only [List.foldl_cons]
    set b' := if xs.count b < xs.count e then e else b with hb'
    obtain ⟨hmem, hbound⟩ := ih b'
    constructor
    · rcases List.mem_cons.1 hmem with h | h
      · rw [h, hb']
        by_cases hc : xs.count b < xs.count e
        · simp [hc]
        · simp [hc]
      · exact List.mem_cons.2 (Or.inr (List.mem_cons.2 (Or.inr h)))
    · intro y hy
      rcases List.mem_cons.1 hy with h | h
      · subst h
        refine le_trans ?_ (hbound b' (List.mem_cons_self b' es))
        rw [hb']
        by_cases hc : xs.count y < xs.count e
        · simp only [hc, if_pos]
          exact le_of_lt hc
        · simp [hc]
      · rcases List.mem_cons.1 h with h2 | h2
        · subst h2
          refine le_trans ?_ (hbound b' (List.mem_cons_self b' es))
          rw [hb']
          by_cases hc : xs.count b < xs.count y
          · simp [hc]
          · simp only [hc, if_neg]
            exact le_of_not_lt hc
        · exact hbound y (List.mem_cons.2 (Or.inr h2))

theorem fitA_ok : fitMatcher corpusA = .ok stA := by
  have hne : corpusA.isEmpty = false := rfl
  unfold fitMatcher
  rw [hne]
  simp only [Bool.false_eq_true, if_false]
  refine congrArg Except.ok ?_
  have hcl : (List.range 4).map (fun i => classesOf (catColVals corpusA i)) =
      stA.classes := rfl
  have hcols : fitCols corpusA = [[10, 20], [3, 3], [2, 2], [0, 0], [0, 0], [0, 0], [0, 0], [0, 0]] := rfl
  have hrows : fitRowsPre corpusA = stA.fitX := rfl
  refine FitState.mk.injEq _ _ _ _ _ _ _ _ _ _ ▸ ?_
  refine ⟨hcl, ?_, ?_, hrows, rfl⟩
  · rw [hcols]
    norm_num [qmean, qsum, stA]
  · rw [hcols]
    norm_num [qvar, qmean, qsum, stA]
    simp

theorem fitB_ok : fitMatcher corpusB = .ok stB := by
  have hne : corpusB.isEmpty = false := rfl
  unfold fitMatcher
  rw [hne]
  simp only [Bool.false_eq_true, if_false]
  refine congrArg Except.ok ?_
  have hcl : (List.range 4).map (fun i => classesOf (catColVals corpusB i)) =
      stB.classes := rfl
  have hcols : fitCols corpusB = [[10, 10], [3, 3], [2, 2], [0, 0], [0, 0], [0, 0], [0, 0], [0, 0]] := rfl
  have hrows : fitRowsPre corpusB = stB.fitX := rfl
  refine FitState.mk.injEq _ _ _ _ _ _ _ _ _ _ ▸ ?_
  refine ⟨hcl, ?_, ?_, hrows, rfl⟩
  · rw [hcols]
    norm_num [qmean, qsum, stB]
  · rw [hcols]
    norm_num [qvar, qmean, qsum, stB]

theorem fitC_ok : fitMatcher corpusC = .ok stC := by
  have hne : corpusC.isEmpty = false := rfl
  unfold fitMatcher
  rw [hne]
  simp only [Bool.false_eq_true, if_false]
  refine congrArg Except.ok ?_
  have hcl : (List.range 4).map (fun i => classesOf (catColVals corpusC i)) =
      stC.classes := rfl
  have hcols : fitCols corpusC =
      [[11, 11, 9, 9], [3, 3, 3, 3], [2, 2, 2, 2], [0, 0, 0, 0], [0, 0, 0, 0],
       [0, 0, 0, 0], [0, 0, 0, 0], [0, 0, 0, 0]] := rfl
  have hrows : fitRowsPre corpusC = stC.fitX := rfl
  refine FitState.mk.injEq _ _ _ _ _ _ _ _ _ _ ▸ ?_
  refine ⟨hcl, ?_, ?_, hrows, rfl⟩
  · rw [hcols]
    norm_num [qmean, qsum, stC]
  · rw [hcols]
    norm_num [qvar, qmean, qsum, stC]

/-! ## Claim theorems -/

/-- C1: the claim fails on the code and the code contradicts its own
comment ("Use pre-fitted median"): the non-fit path of `preprocess_data`
recomputes the median from the transform-time batch
(`df[col].fillna(df[col].median())`, `ml_model.py` line 57) instead of
using any statistic stored at fit time.  Concretely, after fitting
`corpusA`, the record `rMiss` (missing `in.sqft..ft2`) keeps a NaN `sqft`
channel when transformed alone, but gets the companion-derived value 100
when transformed alongside `rComp` — the transformed feature vector of a
fixed record depends on the accompanying records, and the missing value is
never imputed with the fit-time median (15 would be the stored-median
image; the fit-time median of `corpusA`'s sqft column is 15). -/
theorem c1_median_recomputed_bug :
    fitMatcher corpusA = .ok stA ∧
    noFitRows stA [rMiss] =
      [[none, some 3, some 2, some 0, some 0, some 0, some 0, some 0]] ∧
    noFitRows stA [rMiss, rComp] =
      [[some 100, some 3, some 2, some 0, some 0, some 0, some 0, some 0],
       [some 100, some 3, some 2, some 0, some 0, some 0, some 0, some 0]] ∧
    (noFitRows stA [rMiss]).getD 0 [] ≠ (noFitRows stA [rMiss, rComp]).getD 0 [] := by
  have h1 : noFitRows stA [rMiss] =
      [[none, some 3, some 2, some 0, some 0, some 0, some 0, some 0]] := rfl
  have h2 : noFitRows stA [rMiss, rComp] =
      [[some 100, some 3, some 2, some 0, some 0, some 0, some 0, some 0],
       [some 100, some 3, some 2, some 0, some 0, some 0, some 0, some 0]] := rfl
  refine ⟨fitA_ok, h1, h2, ?_⟩
  rw [h1, h2]
  simp

/-- C4: before `fit`, both `find_similar_homes` and `predict_energy_usage`
fail with the typed `NotFittedError` (raised by `StandardScaler.transform`
in `preprocess_data`), and on a fitted matcher a non-positive `k` makes
`kneighbors` fail with the typed invalid-argument `ValueError`
(`Expected n_neighbors > 0`); none of these paths crashes arbitrarily or
returns an empty result, whatever enumeration the backend would use. -/
theorem c4_typed_errors (stv : FitState) (user : Home) (homes : List Home)
    (k : ℤ) (order : List (ℕ × ℚ)) :
    findSimilarIdx none user homes k order = .error .notFitted ∧
    predictEnergyUsage none user homes k order = .error .notFitted ∧
    (k ≤ 0 → findSimilarIdx (some stv) user homes k order = .error .invalidArgument) ∧
    (k ≤ 0 → predictEnergyUsage (some stv) user homes k order = .error .invalidArgument) := by
  have h1 : findSimilarIdx none user homes k order = .error .notFitted := rfl
  have h3 : k ≤ 0 →
      findSimilarIdx (some stv) user homes k order = .error .invalidArgument := by
    intro hk
    have hmin : min k (homes.length : ℤ) ≤ 0 := le_trans (min_le_left _ _) hk
    have hstep : findSimilarIdx (some stv) user homes k order =
        kneighborsE stv ((noFitRows stv [user]).getD 0 [])
          (min k (homes.length : ℤ)) order := rfl
    rw [hstep]
    unfold kneighborsE
    rw [if_pos hmin]
  refine ⟨h1, ?_, h3, ?_⟩
  · unfold predictEnergyUsage findSimilarHomes
    rw [h1]
  · intro hk
    unfold predictEnergyUsage findSimilarHomes
    rw [h3 hk]

/-- Witness for C4 at a concrete input: the not-fitted matcher and `k = 0`
each give their typed error on `corpusA`. -/
theorem c4_typed_errors_witness :
    findSimilarIdx none dfltHome corpusA 2 [] = .error .notFitted ∧
    findSimilarIdx (some stA) dfltHome corpusA 0 [] = .error .invalidArgument :=
  ⟨(c4_typed_errors stA dfltHome corpusA 2 []).1,
   (c4_typed_errors stA dfltHome corpusA 0 []).2.2.1 (by decide)⟩

/-- C10: a usage value of 0 (or the empty string) is falsy in Python, so
`predict_energy_usage` skips such a twin when collecting usage values
(`if usage:` at `ml_model.py` line 176) rather than contributing a zero to
the weighted average, and `_generate_recommendation` treats a query with
usage 0 (or `''`) as supplying no usage, producing the informational
message. -/
theorem c10_zero_usage_treated_absent :
    (∀ (t : TwinResult) (rest : List TwinResult),
      (t.home.monthlyKwh = .num 0 ∨ t.home.monthlyKwh = .str "") →
      collectUsages (t :: rest) = collectUsages rest) ∧
    (∀ (user : Home) (similar : List Home) (usages : List ℚ),
      (user.monthlyKwh = .num 0 ∨ user.monthlyKwh = .str "") →
      genRecommendation user similar usages =
        .ok (.info (pyInt (qmean usages)) similar.length)) := by
  constructor
  · intro t rest h
    rcases h with h | h <;>
      simp [collectUsages, h, pyTruthy]
  · intro user similar usages h
    rcases h with h | h <;>
      simp [genRecommendation, h, pyTruthy]

/-- Witness for C10 at a concrete input: a zero-usage twin over `corpusA`'s
first record contributes nothing, and a zero-usage query gets the
informational message. -/
theorem c10_zero_usage_witness :
    collectUsages [⟨mkHome 10 (.num 0), 1⟩] = collectUsages [] ∧
    genRecommendation (mkHome 10 (.num 0)) corpusA [800] =
      .ok (.info (pyInt (qmean [800])) corpusA.length) :=
  ⟨(c10_zero_usage_treated_absent).1 ⟨mkHome 10 (.num 0), 1⟩ [] (Or.inl rfl),
   (c10_zero_usage_treated_absent).2 (mkHome 10 (.num 0)) corpusA [800] (Or.inl rfl)⟩

/-- C9: `_generate_recommendation` is a three-way branch on the query's
(truthy, `float`ed) usage `u` against the twin average `a = qmean usages`:
strictly above `a * 1.2` gives the "higher" message, strictly below
`a * 0.8` the "lower" message, the closed band between them (boundaries
included) the "typical" message; a falsy/absent usage gives the purely
informational message quoting the (truncated) twin average and the twin
count.  (The hypothesis `0 ≤ qmean usages` restricts to nonnegative twin
averages — always the case for kWh data — since for a negative average the
two strict conditions overlap and the code's `elif` gives "higher"
priority.) -/
theorem c9_recommendation_branches (user : Home) (similar : List Home)
    (usages : List ℚ) (hpos : 0 ≤ qmean usages) :
    (∀ u : ℚ, pyTruthy user.monthlyKwh = true → pyFloat user.monthlyKwh = .ok u →
      ((qmean usages * (6 / 5) < u →
          genRecommendation user similar usages =
            .ok (.higher (pyInt u) (pyInt (qmean usages)))) ∧
       (u < qmean usages * (4 / 5) →
          genRecommendation user similar usages =
            .ok (.lower (pyInt u) (pyInt (qmean usages)))) ∧
       (qmean usages * (4 / 5) ≤ u → u ≤ qmean usages * (6 / 5) →
          genRecommendation user similar usages =
            .ok (.typical (pyInt u) (pyInt (qmean usages)))))) ∧
    (pyTruthy user.monthlyKwh = false →
      genRecommendation user similar usages =
        .ok (.info (pyInt (qmean usages)) similar.length)) := by
  constructor
  · intro u ht hf
    refine ⟨?_, ?_, ?_⟩
    · intro hgt
      simp only [genRecommendation, ht, if_true, hf]
      rw [if_pos hgt]
    · intro hlt
      have h45 : qmean usages * (4 / 5) ≤ qmean usages * (6 / 5) := by nlinarith
      have hnot : ¬ qmean usages * (6 / 5) < u := by
        intro hcon
        linarith
      simp only [genRecommendation, ht, if_true, hf]
      rw [if_neg hnot, if_pos hlt]
    · intro hge hle
      have hnot1 : ¬ qmean usages * (6 / 5) < u := not_lt.2 hle
      have hnot2 : ¬ u < qmean usages * (4 / 5) := not_lt.2 hge
      simp only [genRecommendation, ht, if_true, hf]
      rw [if_neg hnot1, if_neg hnot2]
  · intro hfalse
    simp only [genRecommendation, hfalse, Bool.false_eq_true, if_false]

/-- Witness for C9 at a concrete input: usage 1000 against a twin average
of 900 falls in the typical band. -/
theorem c9_recommendation_witness :
    pyTruthy (Cell.num 1000) = true ∧
    genRecommendation (mkHome 10 (.num 1000)) corpusA [900] =
      .ok (.typical (pyInt 1000) (pyInt (qmean [900]))) := by
  refine ⟨by decide, ?_⟩
  exact ((c9_recommendation_branches (mkHome 10 (.num 1000)) corpusA [900]
      (by norm_num [qmean, qsum])).1
    1000 (by decide) (by rfl)).2.2 (by norm_num [qmean, qsum]) (by norm_num [qmean, qsum])

/-- C8 counterexample: the claim's tie-break ("first occurrence in the
twins sequence") fails on the code.  `common_heating` is
`max(set(heating_types), key=heating_types.count)` and Python's `set`
iterates in an unspecified hash-dependent order: over twins with heating
fuels Electricity, Natural Gas, Natural Gas, Electricity (a 2–2 tie whose
first occurrence is Electricity), the legitimate set order `enumC8`
(Natural Gas before Electricity) makes the code return Natural Gas, while
the claimed first-occurrence tie-break (`specCommonHeating`) returns
Electricity. -/
theorem c8_counterexample :
    List.Perm enumC8 (dedupFirst (twinsC8.map (fun h => toCategStr h.heatingFuel))) ∧
    commonHeating enumC8 twinsC8 = "Natural Gas" ∧
    specCommonHeating twinsC8 = "Electricity" ∧
    commonHeating enumC8 twinsC8 ≠ specCommonHeating twinsC8 := by
  refine ⟨by decide, by rfl, by rfl, by decide⟩

/-- C8 amended: for every non-empty twins sequence and every iteration
order of the set of heating types (any permutation of the distinct
values), `common_heating` is a heating-fuel category of the twins with
maximal count; WHICH of several tied categories is returned depends on the
unspecified set iteration order, not on first occurrence in the twins
sequence. -/
theorem c8_common_heating_mode (setEnum : List String) (similar : List Home)
    (hne : similar ≠ [])
    (hperm : List.Perm setEnum
      (dedupFirst (similar.map (fun h => toCategStr h.heatingFuel)))) :
    commonHeating setEnum similar ∈ similar.map (fun h => toCategStr h.heatingFuel) ∧
    ∀ y ∈ similar.map (fun h => toCategStr h.heatingFuel),
      (similar.map (fun h => toCategStr h.heatingFuel)).count y ≤
        (similar.map (fun h => toCategStr h.heatingFuel)).count
          (commonHeating setEnum similar) := by
  set ht := similar.map (fun h => toCategStr h.heatingFuel) with hht
  have htne : ht ≠ [] := by
    intro hcon
    exact hne (List.map_eq_nil_iff.1 (hht ▸ hcon))
  have hEmpty : ht.isEmpty = false := by
    cases h : ht with
    | nil => exact absurd h htne
    | cons a t => rfl
  have hEnumNe : setEnum ≠ [] := by
    intro hcon
    have : dedupFirst ht = [] := by
      have := hperm.length_eq
      rw [hcon] at this
      exact List.length_eq_zero.1 this.symm
    exact dedupFirst_ne_nil htne this
  obtain ⟨e, es, rfl⟩ := List.exists_cons_of_ne_nil hEnumNe
  have hch : commonHeating (e :: es) similar = pyMaxCount ht (e :: es) := by
    show (if (similar.map (fun h => toCategStr h.heatingFuel)).isEmpty = true
        then "Unknown"
        else pyMaxCount (similar.map (fun h => toCategStr h.heatingFuel)) (e :: es)) =
      pyMaxCount ht (e :: es)
    rw [← hht, hEmpty]
    simp
  have hfold := foldl_maxCount_spec ht es e
  have hres : pyMaxCount ht (e :: es) =
      es.foldl (fun best x => if ht.count best < ht.count x then x else best) e := rfl
  constructor
  · rw [hch, hres]
    have hmem := hfold.1
    have : es.foldl (fun best x => if ht.count best < ht.count x then x else best) e
        ∈ dedupFirst ht := hperm.mem_iff.1 hmem
    exact mem_dedupFirst.1 this
  · intro y hy
    rw [hch, hres]
    have hyEnum : y ∈ e :: es := hperm.mem_iff.2 (mem_dedupFirst.2 hy)
    exact hfold.2 y hyEnum

/-- Witness for C8's amended theorem at a concrete input: on `twinsC8`
with the set order `enumC8`, the returned category is among the twins'
heating types and has maximal count. -/
theorem c8_common_heating_mode_witness :
    commonHeating enumC8 twinsC8 ∈ twinsC8.map (fun h => toCategStr h.heatingFuel) ∧
    ∀ y ∈ twinsC8.map (fun h => toCategStr h.heatingFuel),
      (twinsC8.map (fun h => toCategStr h.heatingFuel)).count y ≤
        (twinsC8.map (fun h => toCategStr h.heatingFuel)).count
          (commonHeating enumC8 twinsC8) :=
  c8_common_heating_mode enumC8 twinsC8 (by decide) (by decide)

theorem simOfSq_zero : simOfSq 0 = 1 := by
  unfold simOfSq similarity
  rw [Rat.cast_zero, Real.sqrt_zero]
  norm_num

theorem sqrt_four_eq : Real.sqrt 4 = 2 := by
  rw [show (4 : ℝ) = 2 ^ 2 by norm_num, Real.sqrt_sq (by norm_num : (0 : ℝ) ≤ 2)]

theorem simOfSq_four : simOfSq 4 = 1 / 3 := by
  unfold simOfSq similarity
  rw [show ((4 : ℚ) : ℝ) = (4 : ℝ) by norm_num, sqrt_four_eq]
  norm_num

theorem simOfSq_pos (q : ℚ) : 0 < simOfSq q := by
  unfold simOfSq similarity
  have h := Real.sqrt_nonneg ((q : ℚ) : ℝ)
  positivity

theorem qvB_eval : queryVals stB (mkHome 10 (.num 900)) = [10, 3, 2, 0, 0, 0, 0, 0] := rfl

theorem npB_eval :
    neighborPairs stB (queryVals stB (mkHome 10 (.num 900))) = [(0, 0), (1, 0)] := by
  rw [qvB_eval]
  unfold neighborPairs
  have hd : stB.fitX.map
      (fun r => distSqW stB.varAdj [10, 3, 2, 0, 0, 0, 0, 0] r) = [0, 0] := by
    norm_num [stB, distSqW, qsum, List.zipWith3]
  rw [hd]
  rfl

theorem ordB01_valid :
    validOrder stB (queryVals stB (mkHome 10 (.num 900))) [(0, 0), (1, 0)] := by
  refine ⟨?_, ?_⟩
  · rw [npB_eval]
  · decide

theorem ordB10_valid :
    validOrder stB (queryVals stB (mkHome 10 (.num 900))) [(1, 0), (0, 0)] := by
  refine ⟨?_, ?_⟩
  · rw [npB_eval]
    exact List.Perm.swap _ _ _
  · decide

/-- C3 counterexample: the "returns that member first" part of the claim
is not a guarantee of the code.  `corpusB` holds two records with
identical features that differ only in their usage value, so querying
with a record identical to corpus member 1 puts BOTH members at distance
0; scikit-learn leaves the order of exact-distance ties unspecified
(backend-dependent), and under the legitimate distance-sorted enumeration
`[(0, 0), (1, 0)]` — certified by `validOrder`, and as legitimate as its
swap `ordB10_valid` — the FIRST returned record is member 0, a different
record, with similarity 1.0.  (The similarity-formula part of the claim
is true and is proved, with the amended first-result property, in
`c3_similarity_formula`.) -/
theorem c3_counterexample :
    fitMatcher corpusB = .ok stB ∧
    corpusB.get? 1 = some (mkHome 10 (.num 900)) ∧
    validOrder stB (queryVals stB (mkHome 10 (.num 900))) [(0, 0), (1, 0)] ∧
    (findSimilarHomes (some stB) (mkHome 10 (.num 900)) corpusB 2
        [(0, 0), (1, 0)]).map (fun l => l.map TwinResult.home) =
      .ok [mkHome 10 (.num 500), mkHome 10 (.num 900)] ∧
    (findSimilarHomes (some stB) (mkHome 10 (.num 900)) corpusB 2
        [(0, 0), (1, 0)]).map (fun l => l.map TwinResult.score) = .ok [1, 1] ∧
    mkHome 10 (.num 500) ≠ mkHome 10 (.num 900) := by
  have hidx : findSimilarIdx (some stB) (mkHome 10 (.num 900)) corpusB 2
      [(0, 0), (1, 0)] = .ok [(0, 0), (1, 0)] := rfl
  have hfsh : findSimilarHomes (some stB) (mkHome 10 (.num 900)) corpusB 2
      [(0, 0), (1, 0)] =
      .ok [⟨mkHome 10 (.num 500), simOfSq 0⟩, ⟨mkHome 10 (.num 900), simOfSq 0⟩] := by
    unfold findSimilarHomes
    rw [hidx]
    simp [attachHomes, corpusB]
  refine ⟨fitB_ok, rfl, ordB01_valid, ?_, ?_, ?_⟩
  · rw [hfsh]
    rfl
  · rw [hfsh, simOfSq_zero]
    rfl
  · intro hcon
    have : Cell.num 500 = Cell.num 900 := congrArg Home.monthlyKwh hcon
    simp [mkHome] at hcon

theorem qsum_nil : qsum [] = 0 := rfl

theorem qsum_cons (x : ℚ) (l : List ℚ) : qsum (x :: l) = x + qsum l := rfl

theorem qsum_nonneg {l : List ℚ} (h : ∀ x ∈ l, 0 ≤ x) : 0 ≤ qsum l := by
  induction l with
  | nil => exact le_refl 0
  | cons x xs ih =>
    rw [qsum_cons]
    exact add_nonneg (h x (List.mem_cons_self _ _))
      (ih (fun y hy => h y (List.mem_cons.2 (Or.inr hy))))

theorem qvar_nonneg (l : List ℚ) : 0 ≤ qvar l := by
  unfold qvar
  apply div_nonneg
  · apply qsum_nonneg
    intro x hx
    obtain ⟨y, _, rfl⟩ := List.mem_map.1 hx
    exact sq_nonneg _
  · exact_mod_cast Nat.zero_le _

theorem orElse_medianQ_single (x : Option ℚ) :
    (x <|> medianQ (List.filterMap id [x])) = x := by
  cases x <;> rfl

theorem encNoFit_single (cl : List String) (s : String) :
    (encNoFit cl [s]).map some = [some (encNoFitSingle cl s)] := by
  unfold encNoFit encNoFitSingle
  by_cases h2 : s ∈ cl <;> simp [h2]

theorem queryRow_eq (st : FitState) (u : Home) :
    (noFitRows st [u]).getD 0 [] = queryRow st u := by
  have hbase : (noFitRows st [u]).getD 0 [] =
      [toNumeric u.sqft <|> medianQ (List.filterMap id [toNumeric u.sqft]),
       toNumeric u.bedrooms <|> medianQ (List.filterMap id [toNumeric u.bedrooms]),
       toNumeric u.occupants <|> medianQ (List.filterMap id [toNumeric u.occupants]),
       ((encNoFit (st.classes.getD 0 []) [toCategStr u.buildingType]).map some).getD 0 none,
       ((encNoFit (st.classes.getD 1 []) [toCategStr u.heatingFuel]).map some).getD 0 none,
       ((encNoFit (st.classes.getD 2 []) [toCategStr u.coolingType]).map some).getD 0 none,
       ((encNoFit (st.classes.getD 3 []) [toCategStr u.climateZone]).map some).getD 0 none,
       some (solarEncoded u.hasSolarPanel)] := rfl
  rw [hbase, orElse_medianQ_single, orElse_medianQ_single, orElse_medianQ_single,
      encNoFit_single, encNoFit_single, encNoFit_single, encNoFit_single]
  rfl

theorem seqRow_map_some (l : List ℚ) : seqRow (l.map some) = some l := by
  induction l with
  | nil => rfl
  | cons x xs ih => simp [seqRow, ih]

theorem queryRow_eq_map_some (st : FitState) (u : Home) (h : numPresent u = true) :
    queryRow st u = (queryVals st u).map some := by
  simp only [numPresent, numCells, List.map_cons, List.map_nil, List.all_cons,
    List.all_nil, Bool.and_true, Bool.and_eq_true] at h
  obtain ⟨h1, h2, h3⟩ := h
  obtain ⟨q1, e1⟩ := Option.isSome_iff_exists.1 h1
  obtain ⟨q2, e2⟩ := Option.isSome_iff_exists.1 h2
  obtain ⟨q3, e3⟩ := Option.isSome_iff_exists.1 h3
  simp [queryRow, queryVals, e1, e2, e3]

theorem withIdx_length (i : ℕ) (ds : List ℚ) : (withIdx i ds).length = ds.length := by
  induction ds generalizing i with
  | nil => rfl
  | cons d ds ih => simp [withIdx, ih]

theorem mem_withIdx {p : ℕ × ℚ} {i : ℕ} {ds : List ℚ} (h : p ∈ withIdx i ds) :
    i ≤ p.1 ∧ p.1 - i < ds.length ∧ ds.get? (p.1 - i) = some p.2 := by
  induction ds generalizing i with
  | nil => cases h
  | cons d ds ih =>
    rcases List.mem_cons.1 h with h | h
    · subst h
      refine ⟨le_refl _, by simp, by simp⟩
    · obtain ⟨h1, h2, h3⟩ := ih h
      refine ⟨by omega, by simp; omega, ?_⟩
      have he : p.1 - i = (p.1 - (i + 1)) + 1 := by omega
      rw [he]
      simpa using h3

theorem withIdx_mem_of_get {ds : List ℚ} {j : ℕ} {d : ℚ} (h : ds.get? j = some d)
    (i : ℕ) : (i + j, d) ∈ withIdx i ds := by
  induction ds generalizing i j with
  | nil => simp at h
  | cons x xs ih =>
    cases j with
    | zero =>
      simp only [List.get?] at h
      injection h with h
      subst h
      simp [withIdx]
    | succ j =>
      have hmem := ih (by simpa using h) (i + 1)
      have heq : i + (j + 1) = (i + 1) + j := by omega
      rw [heq]
      exact List.mem_cons.2 (Or.inr hmem)

theorem withIdx_pairwise_fst (i : ℕ) (ds : List ℚ) :
    List.Pairwise (fun a b : ℕ × ℚ => a.1 < b.1) (withIdx i ds) := by
  induction ds generalizing i with
  | nil => exact List.Pairwise.nil
  | cons d ds ih =>
    refine List.Pairwise.cons ?_ (ih (i + 1))
    intro p hp
    have h1 := (mem_withIdx hp).1
    show i < p.1
    omega

theorem distSqW_nonneg : ∀ (ws us vs : List ℚ), (∀ w ∈ ws, 0 < w) →
    0 ≤ distSqW ws us vs := by
  intro ws
  induction ws with
  | nil =>
    intro us vs _
    cases us <;> cases vs <;> exact le_refl 0
  | cons w ws ih =>
    intro us vs h
    cases us with
    | nil => exact le_refl 0
    | cons u us =>
      cases vs with
      | nil => exact le_refl 0
      | cons v vs =>
        have h0 : 0 < w := h w (List.mem_cons_self _ _)
        have hrest := ih us vs (fun x hx => h x (List.mem_cons.2 (Or.inr hx)))
        show 0 ≤ (u - v) ^ 2 / w +
          qsum (List.zipWith3 (fun w u v => (u - v) ^ 2 / w) ws us vs)
        exact add_nonneg (div_nonneg (sq_nonneg _) h0.le) hrest

theorem distSqW_self : ∀ (ws us : List ℚ), distSqW ws us us = 0 := by
  intro ws
  induction ws with
  | nil =>
    intro us
    cases us <;> rfl
  | cons w ws ih =>
    intro us
    cases us with
    | nil => rfl
    | cons u us =>
      show (u - u) ^ 2 / w +
        qsum (List.zipWith3 (fun w u v => (u - v) ^ 2 / w) ws us us) = 0
      have := ih us
      unfold distSqW at this
      rw [sub_self, this]
      norm_num

theorem fitMatcher_inv {corpus : List Home} {st : FitState}
    (h : fitMatcher corpus = .ok st) :
    corpus ≠ [] ∧
    st = { classes := (List.range 4).map (fun i => classesOf (catColVals corpus i))
           means := (fitCols corpus).map qmean
           varAdj := (fitCols corpus).map (fun c => let v := qvar c; if v = 0 then 1 else v)
           fitX := fitRowsPre corpus
           nDefault := min 50 corpus.length } := by
  unfold fitMatcher at h
  by_cases hc : corpus.isEmpty = true
  · rw [if_pos hc] at h
    cases h
  · rw [if_neg hc] at h
    refine ⟨?_, ?_⟩
    · intro hcon
      subst hcon
      exact hc rfl
    · injection h with h
      exact h.symm

theorem fitX_length {corpus : List Home} {st : FitState}
    (h : fitMatcher corpus = .ok st) : st.fitX.length = corpus.length := by
  rw [(fitMatcher_inv h).2]
  show (fitRowsPre corpus).length = corpus.length
  unfold fitRowsPre colsToRows
  simp

theorem varAdj_pos {corpus : List Home} {st : FitState}
    (h : fitMatcher corpus = .ok st) : ∀ w ∈ st.varAdj, 0 < w := by
  rw [(fitMatcher_inv h).2]
  intro w hw
  obtain ⟨c, _, rfl⟩ := List.mem_map.1 hw
  show 0 < if qvar c = 0 then 1 else qvar c
  by_cases hv : qvar c = 0
  · rw [if_pos hv]
    norm_num
  · rw [if_neg hv]
    exact lt_of_le_of_ne (qvar_nonneg c) (Ne.symm hv)

theorem classes_getD {corpus : List Home} {st : FitState}
    (h : fitMatcher corpus = .ok st) (i : ℕ) (hi : i < 4) :
    st.classes.getD i [] = classesOf (catColVals corpus i) := by
  rw [(fitMatcher_inv h).2]
  show ((List.range 4).map (fun i => classesOf (catColVals corpus i))).getD i [] = _
  rw [List.getD_eq_getD_get?, List.get?_map, List.get?_range hi]
  rfl

theorem kneighborsE_ok (st : FitState) (row : List (Option ℚ)) (u : List ℚ)
    (m : ℤ) (order : List (ℕ × ℚ)) (hm : 0 < m) (hseq : seqRow row = some u)
    (hle : m ≤ (st.fitX.length : ℤ)) :
    kneighborsE st row m order = .ok (List.take m.toNat order) := by
  unfold kneighborsE
  rw [if_neg (by omega), hseq]
  change (if (st.fitX.length : ℤ) < m then Except.error Err.invalidArgument
    else Except.ok (List.take m.toNat order)) = _
  rw [if_neg (not_lt.2 hle)]

theorem findSimilarIdx_ok {corpus : List Home} {st : FitState} (q : Home) (k : ℤ)
    (order : List (ℕ × ℚ)) (hfit : fitMatcher corpus = .ok st) (hk : 1 ≤ k)
    (hnum : numPresent q = true) :
    findSimilarIdx (some st) q corpus k order =
      .ok (List.take (min k (corpus.length : ℤ)).toNat order) := by
  have hne := (fitMatcher_inv hfit).1
  have hlen : (0 : ℤ) < (corpus.length : ℤ) := by
    exact_mod_cast List.length_pos.2 hne
  have hstep : findSimilarIdx (some st) q corpus k order =
      kneighborsE st ((noFitRows st [q]).getD 0 [])
        (min k (corpus.length : ℤ)) order := rfl
  rw [hstep, queryRow_eq, queryRow_eq_map_some st q hnum]
  apply kneighborsE_ok
  · exact lt_min (by omega) hlen
  · exact seqRow_map_some _
  · rw [fitX_length hfit]
    exact min_le_right _ _

theorem validOrder_length {st : FitState} {u : List ℚ} {order : List (ℕ × ℚ)}
    (h : validOrder st u order) : order.length = st.fitX.length := by
  rw [h.1.length_eq]
  unfold neighborPairs
  rw [withIdx_length, List.length_map]

theorem mem_validOrder {st : FitState} {u : List ℚ} {order : List (ℕ × ℚ)}
    (h : validOrder st u order) {p : ℕ × ℚ} (hp : p ∈ order) :
    p.1 < st.fitX.length ∧
      (st.fitX.map (fun r => distSqW st.varAdj u r)).get? p.1 = some p.2 := by
  have h2 : p ∈ neighborPairs st u := h.1.mem_iff.1 hp
  obtain ⟨_, hlt, hget⟩ := mem_withIdx h2
  rw [Nat.sub_zero] at hlt hget
  refine ⟨?_, hget⟩
  simpa using hlt

theorem mem_validOrder_nonneg {corpus : List Home} {st : FitState} {q : Home}
    {order : List (ℕ × ℚ)} (hfit : fitMatcher corpus = .ok st)
    (h : validOrder st (queryVals st q) order) {p : ℕ × ℚ} (hp : p ∈ order) :
    p.1 < corpus.length ∧ 0 ≤ p.2 := by
  obtain ⟨hlt, hget⟩ := mem_validOrder h hp
  rw [fitX_length hfit] at hlt
  refine ⟨hlt, ?_⟩
  rw [List.get?_map] at hget
  cases hrow : st.fitX.get? p.1 with
  | none => rw [hrow] at hget; cases hget
  | some row =>
    rw [hrow] at hget
    injection hget with hget
    rw [← hget]
    exact distSqW_nonneg st.varAdj (queryVals st q) row (varAdj_pos hfit)

theorem simOfSq_antitone {a b : ℚ} (hab : a ≤ b) : simOfSq b ≤ simOfSq a := by
  unfold simOfSq similarity
  have h1 : Real.sqrt (a : ℝ) ≤ Real.sqrt (b : ℝ) :=
    Real.sqrt_le_sqrt (by exact_mod_cast hab)
  have h2 : (0 : ℝ) < 1 + Real.sqrt (a : ℝ) := by positivity
  exact one_div_le_one_div_of_le h2 (by linarith)

/-- C2 counterexample: the claimed ascending-corpus-index tie-break is
not a guarantee of the code.  scikit-learn's `kneighbors` leaves the
order of exact-distance ties unspecified (backend- and version-dependent,
and the repository pins no scikit-learn version): for `corpusB`'s exact
tie BOTH enumerations `[(0,0), (1,0)]` and `[(1,0), (0,0)]` are
legitimate distance-sorted enumerations (`validOrder` holds for both),
and under the second the returned list violates the claimed strict
ascending-index tie order `pairLt`. -/
theorem c2_counterexample :
    fitMatcher corpusB = .ok stB ∧
    validOrder stB (queryVals stB (mkHome 10 (.num 900))) [(0, 0), (1, 0)] ∧
    validOrder stB (queryVals stB (mkHome 10 (.num 900))) [(1, 0), (0, 0)] ∧
    findSimilarIdx (some stB) (mkHome 10 (.num 900)) corpusB 2 [(1, 0), (0, 0)] =
      .ok [(1, 0), (0, 0)] ∧
    ¬ List.Pairwise pairLt [((1 : ℕ), (0 : ℚ)), (0, 0)] := by
  refine ⟨fitB_ok, ordB01_valid, ordB10_valid, rfl, ?_⟩
  intro hcon
  have h := (List.pairwise_cons.1 hcon).1 (0, 0) (List.mem_cons_self _ _)
  rcases h with h | ⟨_, h⟩
  · exact absurd h (lt_irrefl _)
  · omega

/-- C2 amended: for every legitimate backend enumeration (`validOrder`),
`find_similar` after fit on a clean query with `k ≥ 1` returns exactly
`min(k, corpus_size)` (index, squared distance) pairs — a count within
the claimed range — in non-decreasing squared-distance order
(equivalently non-decreasing Euclidean distance and non-increasing
similarity score), every index a valid corpus row with a nonnegative
distance; the order among exact-distance ties is NOT fixed by the code
(see `c2_counterexample`). -/
theorem c2_find_similar_ordering {corpus : List Home} {st : FitState} (q : Home)
    (k : ℤ) (order : List (ℕ × ℚ)) (hfit : fitMatcher corpus = .ok st)
    (hk : 1 ≤ k) (hnum : numPresent q = true)
    (hord : validOrder st (queryVals st q) order) :
    ∃ l, findSimilarIdx (some st) q corpus k order = .ok l ∧
      l.length = min k.toNat corpus.length ∧
      min k.toNat corpus.length ≤ l.length ∧ l.length ≤ corpus.length ∧
      List.Pairwise (fun a b : ℕ × ℚ => a.2 ≤ b.2) l ∧
      List.Pairwise (fun a b => simOfSq b.2 ≤ simOfSq a.2) l ∧
      ∀ p ∈ l, p.1 < corpus.length ∧ 0 ≤ p.2 := by
  have holen : order.length = corpus.length := by
    rw [validOrder_length hord, fitX_length hfit]
  refine ⟨_, findSimilarIdx_ok q k order hfit hk hnum, ?_, ?_, ?_, ?_, ?_, ?_⟩
  · rw [List.length_take, holen]
    omega
  · rw [List.length_take, holen]
    omega
  · rw [List.length_take, holen]
    omega
  · exact hord.2.sublist (List.take_sublist _ _)
  · refine (hord.2.sublist (List.take_sublist _ _)).imp ?_
    intro a b hab
    exact simOfSq_antitone hab
  · intro p hp
    exact mem_validOrder_nonneg hfit hord (List.mem_of_mem_take hp)

theorem qvA12_eval :
    queryVals stA (mkHome 12 (.num 900)) = [12, 3, 2, 0, 0, 0, 0, 0] := rfl

theorem npA12_eval : neighborPairs stA (queryVals stA (mkHome 12 (.num 900))) =
    [(0, 4 / 25), (1, 64 / 25)] := by
  rw [qvA12_eval]
  unfold neighborPairs
  have hd : stA.fitX.map
      (fun r => distSqW stA.varAdj [12, 3, 2, 0, 0, 0, 0, 0] r) =
      [4 / 25, 64 / 25] := by
    norm_num [stA, distSqW, qsum, List.zipWith3]
  rw [hd]
  rfl

theorem ordA12_valid : validOrder stA (queryVals stA (mkHome 12 (.num 900)))
    [(0, 4 / 25), (1, 64 / 25)] := by
  refine ⟨?_, ?_⟩
  · rw [npA12_eval]
  · norm_num [List.pairwise_cons]

/-- Witness for C2's amended theorem at a concrete input: a fitted
`corpusA`, a clean query, `k = 1` and the (unique) distance-sorted
enumeration. -/
theorem c2_find_similar_ordering_witness :
    ∃ l, findSimilarIdx (some stA) (mkHome 12 (.num 900)) corpusA 1
        [(0, 4 / 25), (1, 64 / 25)] = .ok l ∧
      l.length = min (Int.toNat 1) corpusA.length ∧
      min (Int.toNat 1) corpusA.length ≤ l.length ∧ l.length ≤ corpusA.length ∧
      List.Pairwise (fun a b : ℕ × ℚ => a.2 ≤ b.2) l ∧
      List.Pairwise (fun a b => simOfSq b.2 ≤ simOfSq a.2) l ∧
      ∀ p ∈ l, p.1 < corpusA.length ∧ 0 ≤ p.2 :=
  c2_find_similar_ordering (mkHome 12 (.num 900)) 1 [(0, 4 / 25), (1, 64 / 25)]
    fitA_ok (by decide) (by rfl) ordA12_valid

theorem attachHomes_ok (homes : List Home) :
    ∀ (l : List (ℕ × ℚ)), (∀ p ∈ l, p.1 < homes.length) →
    attachHomes homes l =
      .ok (l.map (fun p => ⟨homes.getD p.1 dfltHome, simOfSq p.2⟩)) := by
  intro l
  induction l with
  | nil => intro _; rfl
  | cons p ps ih =>
    intro h
    have hp := h p (List.mem_cons_self _ _)
    have hget : homes.get? p.1 = some (homes.getD p.1 dfltHome) := by
      cases hg : homes.get? p.1 with
      | none =>
        have := List.get?_eq_none.1 hg
        omega
      | some a =>
        rw [List.getD_eq_getD_get?, hg]
        rfl
    have hrest := ih (fun x hx => h x (List.mem_cons.2 (Or.inr hx)))
    simp only [attachHomes, hget, hrest, List.map_cons]

theorem findSimilarHomes_ok {corpus : List Home} {st : FitState} (q : Home)
    (k : ℤ) (order : List (ℕ × ℚ)) (hfit : fitMatcher corpus = .ok st)
    (hk : 1 ≤ k) (hnum : numPresent q = true)
    (hord : validOrder st (queryVals st q) order) :
    findSimilarHomes (some st) q corpus k order =
      .ok ((List.take (min k (corpus.length : ℤ)).toNat order).map
        (fun p => ⟨corpus.getD p.1 dfltHome, simOfSq p.2⟩)) := by
  have hmem : ∀ p ∈ List.take (min k (corpus.length : ℤ)).toNat order,
      p.1 < corpus.length := by
    intro p hp
    exact (mem_validOrder_nonneg hfit hord (List.mem_of_mem_take hp)).1
  unfold findSimilarHomes
  rw [findSimilarIdx_ok q k order hfit hk hnum]
  exact attachHomes_ok corpus _ hmem

theorem collectUsages_all_skip {twins : List TwinResult}
    (h : ∀ t ∈ twins, pyTruthy t.home.monthlyKwh = false) :
    collectUsages twins = .ok [] := by
  induction twins with
  | nil => rfl
  | cons t ts ih =>
    have h0 := h t (List.mem_cons_self _ _)
    have hrest := ih (fun x hx => h x (List.mem_cons.2 (Or.inr hx)))
    simp [collectUsages, h0, hrest]

theorem collectUsages_all_const {c : ℚ} (hc : c ≠ 0) :
    ∀ {twins : List TwinResult}, (∀ t ∈ twins, t.home.monthlyKwh = .num c) →
    collectUsages twins = .ok (List.replicate twins.length c) := by
  intro twins
  induction twins with
  | nil => intro _; rfl
  | cons t ts ih =>
    intro h
    have h0 := h t (List.mem_cons_self _ _)
    have hrest := ih (fun x hx => h x (List.mem_cons.2 (Or.inr hx)))
    simp [collectUsages, h0, pyTruthy, hc, pyFloat, hrest, List.replicate_succ]

theorem rsum_nil : rsum [] = 0 := rfl

theorem rsum_cons (x : ℝ) (l : List ℝ) : rsum (x :: l) = x + rsum l := rfl

theorem rsum_nonneg {l : List ℝ} (h : ∀ x ∈ l, 0 ≤ x) : 0 ≤ rsum l := by
  induction l with
  | nil => exact le_refl 0
  | cons x xs ih =>
    rw [rsum_cons]
    exact add_nonneg (h x (List.mem_cons_self _ _))
      (ih (fun y hy => h y (List.mem_cons.2 (Or.inr hy))))

theorem rsum_pos {l : List ℝ} (hne : l ≠ []) (h : ∀ x ∈ l, 0 < x) : 0 < rsum l := by
  cases l with
  | nil => exact absurd rfl hne
  | cons x xs =>
    rw [rsum_cons]
    have h1 : 0 < x := h x (List.mem_cons_self _ _)
    have h2 : 0 ≤ rsum xs :=
      rsum_nonneg (fun y hy => (h y (List.mem_cons.2 (Or.inr hy))).le)
    linarith

theorem rsum_zipWith_const (c : ℚ) :
    ∀ (ws : List ℝ) (n : ℕ), ws.length = n →
    rsum (List.zipWith (fun (w : ℝ) (u : ℚ) => w * (u : ℝ)) ws (List.replicate n c)) =
      (c : ℝ) * rsum ws := by
  intro ws
  induction ws with
  | nil =>
    intro n _
    cases n <;> simp [rsum_nil]
  | cons w ws ih =>
    intro n hn
    cases n with
    | zero => simp at hn
    | succ m =>
      have hm : ws.length = m := by simpa using hn
      rw [List.replicate_succ, List.zipWith_cons_cons, rsum_cons, ih m hm, rsum_cons]
      ring

/-- C5 counterexample: "predict_usage always returns a number" fails on
the code for a query whose numeric field is missing or does not coerce.
On the fitted `corpusA`, the query `rMiss` (missing `in.sqft..ft2`) keeps
a NaN `sqft` channel — the batch-median recomputation of C1 leaves a
singleton all-NaN column NaN — and `kneighbors` then raises the typed
`ValueError: Input contains NaN` before any enumeration is consulted, so
`predict_energy_usage` fails instead of producing a number. -/
theorem c5_counterexample :
    fitMatcher corpusA = .ok stA ∧
    numPresent rMiss = false ∧
    predictEnergyUsage (some stA) rMiss corpusA 50 [] = .error .nanInput :=
  ⟨fitA_ok, rfl, rfl⟩

/-- C5 amended: for every query whose numeric fields coerce (a
non-coercible numeric instead fails with the NaN `ValueError`, see
`c5_counterexample`) and every legitimate backend enumeration,
`predict_energy_usage` returns a number: a corpus in which NO record has
a truthy usage value yields the fixed fallback `900.0` (`ml_model.py`
line 180), and a corpus in which EVERY record has usage 900 yields
exactly 900 (the weighted average of constant values with positive
weights). -/
theorem c5_predict_usage_fallback {corpus : List Home} {st : FitState} (q : Home)
    (k : ℤ) (order : List (ℕ × ℚ)) (hfit : fitMatcher corpus = .ok st)
    (hk : 1 ≤ k) (hnum : numPresent q = true)
    (hord : validOrder st (queryVals st q) order) :
    ((∀ h ∈ corpus, pyTruthy h.monthlyKwh = false) →
      predictEnergyUsage (some st) q corpus k order = .ok 900) ∧
    ((∀ h ∈ corpus, h.monthlyKwh = .num 900) →
      predictEnergyUsage (some st) q corpus k order = .ok 900) := by
  set L := List.take (min k (corpus.length : ℤ)).toNat order with hL
  set T := L.map (fun p => (⟨corpus.getD p.1 dfltHome, simOfSq p.2⟩ : TwinResult)) with hT
  have hfsh : findSimilarHomes (some st) q corpus k order = .ok T :=
    findSimilarHomes_ok q k order hfit hk hnum hord
  have hTmem : ∀ t ∈ T, t.home ∈ corpus := by
    intro t ht
    obtain ⟨p, hp, rfl⟩ := List.mem_map.1 ht
    have hlt : p.1 < corpus.length :=
      (mem_validOrder_nonneg hfit hord (List.mem_of_mem_take (hL ▸ hp))).1
    show corpus.getD p.1 dfltHome ∈ corpus
    rw [List.getD_eq_get corpus dfltHome hlt]
    exact List.get_mem _ _ _
  have hcne := (fitMatcher_inv hfit).1
  have hclen : 0 < corpus.length := List.length_pos.2 hcne
  have holen : order.length = corpus.length := by
    rw [validOrder_length hord, fitX_length hfit]
  have hLlen : L.length = min k.toNat corpus.length := by
    rw [hL, List.length_take, holen]
    omega
  have hTlen : T.length = min k.toNat corpus.length := by
    rw [hT, List.length_map, hLlen]
  have hTne : T ≠ [] := by
    intro hcon
    rw [hcon] at hTlen
    simp at hTlen
    omega
  constructor
  · intro hall
    have hcoll : collectUsages T = .ok [] :=
      collectUsages_all_skip (fun t ht => hall t.home (hTmem t ht))
    simp only [predictEnergyUsage, hfsh, hcoll]
    rfl
  · intro hall
    have hcoll : collectUsages T = .ok (List.replicate T.length 900) :=
      collectUsages_all_const (by norm_num) (fun t ht => hall t.home (hTmem t ht))
    have hrep_ne : List.replicate T.length (900 : ℚ) ≠ [] := by
      intro hcon
      have hle := congrArg List.length hcon
      simp only [List.length_replicate, List.length_nil] at hle
      exact hTne (List.length_eq_zero.1 hle)
    have hWne : T.map TwinResult.score ≠ [] := by
      intro hcon
      exact hTne (List.map_eq_nil_iff.1 hcon)
    have hWpos : ∀ w ∈ T.map TwinResult.score, 0 < w := by
      intro w hw
      obtain ⟨t, ht, rfl⟩ := List.mem_map.1 hw
      rw [hT] at ht
      obtain ⟨p, _, rfl⟩ := List.mem_map.1 ht
      exact simOfSq_pos _
    have hSpos : 0 < rsum (T.map TwinResult.score) := rsum_pos hWne hWpos
    simp only [predictEnergyUsage, hfsh, hcoll]
    rw [if_neg hrep_ne, List.length_replicate, List.take_length]
    unfold npAverage
    rw [if_neg (ne_of_gt hSpos),
      rsum_zipWith_const 900 (T.map TwinResult.score) T.length (by rw [List.length_map]),
      mul_div_cancel_right₀ _ (ne_of_gt hSpos)]
    norm_num

/-- Witness for C5's amended theorem at a concrete input: on `corpusA`
every record has usage 900, and prediction returns exactly 900 under the
distance-sorted enumeration. -/
theorem c5_predict_usage_fallback_witness :
    predictEnergyUsage (some stA) (mkHome 12 (.num 900)) corpusA 2
      [(0, 4 / 25), (1, 64 / 25)] = .ok 900 :=
  (c5_predict_usage_fallback (mkHome 12 (.num 900)) 2 [(0, 4 / 25), (1, 64 / 25)]
    fitA_ok (by decide) (by rfl) ordA12_valid).2 (by decide)

theorem collectUsages_length_le :
    ∀ {twins : List TwinResult} {us : List ℚ},
    collectUsages twins = .ok us → us.length ≤ twins.length := by
  intro twins
  induction twins with
  | nil =>
    intro us h
    injection h with h
    subst h
    exact le_refl 0
  | cons t ts ih =>
    intro us h
    unfold collectUsages at h
    by_cases ht : pyTruthy t.home.monthlyKwh = true
    · rw [if_pos ht] at h
      cases hf : pyFloat t.home.monthlyKwh with
      | error e => rw [hf] at h; cases h
      | ok u =>
        rw [hf] at h
        cases hc : collectUsages ts with
        | error e =>
          rw [hc] at h
          cases h
        | ok us2 =>
          rw [hc] at h
          injection h with h
          subst h
          have := ih hc
          simp
          omega
    · rw [if_neg ht] at h
      have := ih h
      simp
      omega

/-- C6 amended: when at least one collected usage value exists, the code
returns the `np.average` of the collected usages weighted by the
similarity scores of the FIRST `len(usages)` twins in twin order
(`similar_homes[:len(usages)]`, `ml_model.py` line 183) — NOT by the
scores of the twins that contributed the values — and these truncated
weights are positive, so the average is well defined. -/
theorem c6_weight_truncation {corpus : List Home} {st : FitState} (q : Home)
    (k : ℤ) (order : List (ℕ × ℚ)) (hfit : fitMatcher corpus = .ok st)
    (hk : 1 ≤ k) (hnum : numPresent q = true)
    (hord : validOrder st (queryVals st q) order)
    (twins : List TwinResult) (us : List ℚ)
    (htw : findSimilarHomes (some st) q corpus k order = .ok twins)
    (hus : collectUsages twins = .ok us) (hne : us ≠ []) :
    0 < rsum ((twins.take us.length).map TwinResult.score) ∧
    predictEnergyUsage (some st) q corpus k order =
      .ok (rsum (List.zipWith (fun (w : ℝ) (u : ℚ) => w * (u : ℝ))
            ((twins.take us.length).map TwinResult.score) us) /
        rsum ((twins.take us.length).map TwinResult.score)) := by
  have hT := findSimilarHomes_ok q k order hfit hk hnum hord
  rw [htw] at hT
  injection hT with hT
  have hscorepos : ∀ t ∈ twins, 0 < t.score := by
    intro t ht
    rw [hT] at ht
    obtain ⟨p, _, rfl⟩ := List.mem_map.1 ht
    exact simOfSq_pos _
  have husle := collectUsages_length_le hus
  have huspos : 0 < us.length := List.length_pos.2 hne
  have htake_ne : twins.take us.length ≠ [] := by
    intro hcon
    have hlen := congrArg List.length hcon
    rw [List.length_take, List.length_nil] at hlen
    omega
  have hWne : (twins.take us.length).map TwinResult.score ≠ [] := by
    intro hcon
    exact htake_ne (List.map_eq_nil_iff.1 hcon)
  have hWpos : ∀ w ∈ (twins.take us.length).map TwinResult.score, 0 < w := by
    intro w hw
    obtain ⟨t, ht, rfl⟩ := List.mem_map.1 hw
    exact hscorepos t (List.mem_of_mem_take ht)
  have hSpos := rsum_pos hWne hWpos
  refine ⟨hSpos, ?_⟩
  simp only [predictEnergyUsage, htw, hus]
  rw [if_neg hne]
  unfold npAverage
  rw [if_neg (ne_of_gt hSpos)]

theorem qvC_eval : queryVals stC qC = [11, 3, 2, 0, 0, 0, 0, 0] := rfl

theorem npC_eval :
    neighborPairs stC (queryVals stC qC) = [(0, 0), (1, 0), (2, 4), (3, 4)] := by
  rw [qvC_eval]
  unfold neighborPairs
  have hd : stC.fitX.map
      (fun r => distSqW stC.varAdj [11, 3, 2, 0, 0, 0, 0, 0] r) = [0, 0, 4, 4] := by
    norm_num [stC, distSqW, qsum, List.zipWith3]
  rw [hd]
  rfl

theorem ordC_valid :
    validOrder stC (queryVals stC qC) [(0, 0), (1, 0), (2, 4), (3, 4)] := by
  refine ⟨?_, ?_⟩
  · rw [npC_eval]
  · decide

theorem idxC_eval :
    findSimilarIdx (some stC) qC corpusC 3 [(0, 0), (1, 0), (2, 4), (3, 4)] =
      .ok [(0, 0), (1, 0), (2, 4)] := rfl

theorem twinsC_eval :
    findSimilarHomes (some stC) qC corpusC 3 [(0, 0), (1, 0), (2, 4), (3, 4)] =
    .ok [⟨mkHome 11 (.num 0), simOfSq 0⟩, ⟨mkHome 11 (.num 1200), simOfSq 0⟩,
         ⟨mkHome 9 (.num 600), simOfSq 4⟩] := by
  unfold findSimilarHomes
  rw [idxC_eval]
  simp [attachHomes, corpusC]

theorem collC_eval :
    collectUsages [⟨mkHome 11 (.num 0), simOfSq 0⟩, ⟨mkHome 11 (.num 1200), simOfSq 0⟩,
      ⟨mkHome 9 (.num 600), simOfSq 4⟩] = .ok [1200, 600] := by
  norm_num [collectUsages, pyTruthy, pyFloat, mkHome]

/-- Witness for C6's amended theorem at a concrete input: on `corpusC`
with `k = 3` and its distance-sorted enumeration, the hypotheses hold
concretely and the truncated-weights average is what
`predict_energy_usage` returns. -/
theorem c6_weight_truncation_witness :
    ∃ twins us,
      findSimilarHomes (some stC) qC corpusC 3 [(0, 0), (1, 0), (2, 4), (3, 4)] =
        .ok twins ∧
      collectUsages twins = .ok us ∧ us ≠ [] ∧
      0 < rsum ((twins.take us.length).map TwinResult.score) ∧
      predictEnergyUsage (some stC) qC corpusC 3 [(0, 0), (1, 0), (2, 4), (3, 4)] =
        .ok (rsum (List.zipWith (fun (w : ℝ) (u : ℚ) => w * (u : ℝ))
              ((twins.take us.length).map TwinResult.score) us) /
          rsum ((twins.take us.length).map TwinResult.score)) := by
  have hmain := c6_weight_truncation qC 3 [(0, 0), (1, 0), (2, 4), (3, 4)]
    fitC_ok (by decide) (by rfl) ordC_valid _ _ twinsC_eval collC_eval (by simp)
  exact ⟨_, _, twinsC_eval, collC_eval, by simp, hmain.1, hmain.2⟩

/-- C6 counterexample: the claimed pairing (each collected usage weighted
by the similarity score of the twin that CONTRIBUTED it) fails on the
code.  On `corpusC` (squared distances 0, 0, 4, 4 from query `qC`, twin
usages 0 — skipped —, 1200 and 600, similarity scores 1, 1, 1/3) the code
weights the collected usages `[1200, 600]` by the scores of the FIRST two
twins `[1, 1]`, returning 900, while the claimed contributing-twin
pairing `[1, 1/3]` would give 1050.  The exhibited backend enumeration is
certified by `validOrder`, and the 900-vs-1050 gap survives every other
legitimate enumeration: the two zero-distance twins carry equal scores,
and either distance-4 twin has usage 600 and score 1/3. -/
theorem c6_counterexample :
    fitMatcher corpusC = .ok stC ∧
    validOrder stC (queryVals stC qC) [(0, 0), (1, 0), (2, 4), (3, 4)] ∧
    predictEnergyUsage (some stC) qC corpusC 3 [(0, 0), (1, 0), (2, 4), (3, 4)] =
      .ok 900 ∧
    specPredictEnergyUsage (some stC) qC corpusC 3 [(0, 0), (1, 0), (2, 4), (3, 4)] =
      .ok 1050 ∧
    (900 : ℝ) ≠ 1050 := by
  refine ⟨fitC_ok, ordC_valid, ?_, ?_, by norm_num⟩
  · simp only [predictEnergyUsage, twinsC_eval, collC_eval]
    rw [if_neg (by simp)]
    norm_num [npAverage, rsum, simOfSq_zero, List.zipWith]
  · simp only [specPredictEnergyUsage, twinsC_eval, collC_eval]
    rw [if_neg (by simp)]
    norm_num [npAverage, rsum, simOfSq_zero, simOfSq_four, List.filter, pyTruthy,
      mkHome, List.zipWith]

/-- C7: a categorical value unseen at fit time never makes the transform
or `find_similar_homes` raise, whatever enumeration the backend uses.
`LabelEncoder.transform` raises `ValueError` on the single-record query
batch, the `except` handler replaces the encoded column with 0, and the
search still returns a result: the heating-fuel channel (index 4 of the
transformed row) is encoded as the unknown code 0 and
`find_similar_homes` succeeds. -/
theorem c7_unseen_category {corpus : List Home} {st : FitState} (q : Home)
    (k : ℤ) (s : String) (order : List (ℕ × ℚ))
    (hfit : fitMatcher corpus = .ok st) (hk : 1 ≤ k)
    (hnum : numPresent q = true) (hfuel : q.heatingFuel = .str s)
    (hunseen : (st.classes.getD 1 []).contains s = false)
    (hord : validOrder st (queryVals st q) order) :
    ((noFitRows st [q]).getD 0 []).get? 4 = some (some 0) ∧
    ∃ twins, findSimilarHomes (some st) q corpus k order = .ok twins := by
  constructor
  · rw [queryRow_eq]
    show (queryRow st q).get? 4 = some (some 0)
    simp only [queryRow, hfuel, toCategStr]
    have h0 : encNoFitSingle (st.classes.getD 1 []) s = 0 := by
      unfold encNoFitSingle
      rw [hunseen]
      simp
    rw [h0]
    rfl
  · exact ⟨_, findSimilarHomes_ok q k order hfit hk hnum hord⟩

theorem qvCoal_eval :
    queryVals stA { mkHome 10 (.num 900) with heatingFuel := .str "Coal" } =
      [10, 3, 2, 0, 0, 0, 0, 0] := rfl

theorem npCoal_eval :
    neighborPairs stA
      (queryVals stA { mkHome 10 (.num 900) with heatingFuel := .str "Coal" }) =
      [(0, 0), (1, 4)] := by
  rw [qvCoal_eval]
  unfold neighborPairs
  have hd : stA.fitX.map
      (fun r => distSqW stA.varAdj [10, 3, 2, 0, 0, 0, 0, 0] r) = [0, 4] := by
    norm_num [stA, distSqW, qsum, List.zipWith3]
  rw [hd]
  rfl

theorem ordCoal_valid :
    validOrder stA
      (queryVals stA { mkHome 10 (.num 900) with heatingFuel := .str "Coal" })
      [(0, 0), (1, 4)] := by
  refine ⟨?_, ?_⟩
  · rw [npCoal_eval]
  · decide

/-- Witness for C7 at a concrete input: the heating fuel "Coal" was not
in `corpusA`'s fitted vocabulary (which holds only "Natural Gas"), and
the search succeeds under the distance-sorted enumeration. -/
theorem c7_unseen_category_witness :
    ((noFitRows stA [{ mkHome 10 (.num 900) with heatingFuel := .str "Coal" }]).getD 0
      []).get? 4 = some (some 0) ∧
    ∃ twins, findSimilarHomes (some stA)
      { mkHome 10 (.num 900) with heatingFuel := .str "Coal" } corpusA 1
      [(0, 0), (1, 4)] = .ok twins :=
  c7_unseen_category _ 1 "Coal" [(0, 0), (1, 4)] fitA_ok (by decide) (by rfl) rfl
    (by rfl) ordCoal_valid

theorem getD_map_get? {α β : Type} {l : List α} {j : ℕ} {a : α} (f : α → β) (d : β)
    (h : l.get? j = some a) : (l.map f).getD j d = f a := by
  rw [List.getD_eq_getD_get?, List.get?_map, h]
  rfl

theorem contains_classesOf {vals : List String} {s : String} (h : s ∈ vals) :
    (classesOf vals).contains s = true := by
  apply List.elem_iff.2
  unfold classesOf
  exact (List.perm_insertionSort _ _).mem_iff.2 (mem_dedupFirst.2 h)

/-- Fit/transform agreement: the fitted (pre-scaled) feature row of corpus
record `j` coincides with the single-record transform of that same record,
provided its numeric fields are present — fit-time imputation never fires
on present values, the record's categorical values are necessarily in the
fitted vocabularies, and the solar channel is identical. -/
theorem fitX_get_queryVals {corpus : List Home} {st : FitState} {j : ℕ} {q : Home}
    (hfit : fitMatcher corpus = .ok st) (hq : corpus.get? j = some q)
    (hnum : numPresent q = true) :
    st.fitX.get? j = some (queryVals st q) := by
  have hj : j < corpus.length := (List.get?_eq_some.1 hq).1
  have hfx : st.fitX = fitRowsPre corpus := by rw [(fitMatcher_inv hfit).2]
  rw [hfx]
  unfold fitRowsPre colsToRows
  rw [List.get?_map, List.get?_range hj]
  refine congrArg some ?_
  have hv0 : (numColVals corpus 0).get? j = some (toNumeric q.sqft) := by
    unfold numColVals
    rw [List.get?_map, hq]
    rfl
  have hv1 : (numColVals corpus 1).get? j = some (toNumeric q.bedrooms) := by
    unfold numColVals
    rw [List.get?_map, hq]
    rfl
  have hv2 : (numColVals corpus 2).get? j = some (toNumeric q.occupants) := by
    unfold numColVals
    rw [List.get?_map, hq]
    rfl
  have hcat : ∀ i : ℕ, i < 4 → ∀ s : String,
      (catColVals corpus i).get? j = some s →
      (encFit (classesOf (catColVals corpus i)) (catColVals corpus i)).getD j 0 =
        encNoFitSingle (st.classes.getD i []) s := by
    intro i hi s hs
    unfold encFit
    rw [getD_map_get? _ _ hs, classes_getD hfit i hi]
    have hc := contains_classesOf (List.get?_mem hs)
    unfold encNoFitSingle
    rw [if_pos hc]
  have hs0 : (catColVals corpus 0).get? j = some (toCategStr q.buildingType) := by
    unfold catColVals
    rw [List.get?_map, hq]
    rfl
  have hs1 : (catColVals corpus 1).get? j = some (toCategStr q.heatingFuel) := by
    unfold catColVals
    rw [List.get?_map, hq]
    rfl
  have hs2 : (catColVals corpus 2).get? j = some (toCategStr q.coolingType) := by
    unfold catColVals
    rw [List.get?_map, hq]
    rfl
  have hs3 : (catColVals corpus 3).get? j = some (toCategStr q.climateZone) := by
    unfold catColVals
    rw [List.get?_map, hq]
    rfl
  have hsol : (solarCol corpus).getD j 0 = solarEncoded q.hasSolarPanel := by
    unfold solarCol
    exact getD_map_get? _ _ (by rw [hq]) ▸ getD_map_get? _ _ hq
  simp only [numPresent, numCells, List.map_cons, List.map_nil, List.all_cons,
    List.all_nil, Bool.and_true, Bool.and_eq_true] at hnum
  obtain ⟨h1, h2, h3⟩ := hnum
  obtain ⟨x0, hx0⟩ := Option.isSome_iff_exists.1 h1
  obtain ⟨x1, hx1⟩ := Option.isSome_iff_exists.1 h2
  obtain ⟨x2, hx2⟩ := Option.isSome_iff_exists.1 h3
  show
    [((numColVals corpus 0).map (fun v => v.getD
        ((medianQ (List.filterMap id (numColVals corpus 0))).getD (numDefault 0)))).getD j 0,
     ((numColVals corpus 1).map (fun v => v.getD
        ((medianQ (List.filterMap id (numColVals corpus 1))).getD (numDefault 1)))).getD j 0,
     ((numColVals corpus 2).map (fun v => v.getD
        ((medianQ (List.filterMap id (numColVals corpus 2))).getD (numDefault 2)))).getD j 0,
     (encFit (classesOf (catColVals corpus 0)) (catColVals corpus 0)).getD j 0,
     (encFit (classesOf (catColVals corpus 1)) (catColVals corpus 1)).getD j 0,
     (encFit (classesOf (catColVals corpus 2)) (catColVals corpus 2)).getD j 0,
     (encFit (classesOf (catColVals corpus 3)) (catColVals corpus 3)).getD j 0,
     (solarCol corpus).getD j 0] = queryVals st q
  rw [getD_map_get? _ _ hv0, getD_map_get? _ _ hv1, getD_map_get? _ _ hv2,
    hcat 0 (by norm_num) _ hs0, hcat 1 (by norm_num) _ hs1,
    hcat 2 (by norm_num) _ hs2, hcat 3 (by norm_num) _ hs3, hsol,
    hx0, hx1, hx2]
  simp [queryVals, hx0, hx1, hx2]

/-- C3 amended: the similarity conversion `1/(1+d)` equals 1.0 at
distance 0, lies in (0, 1] and is strictly decreasing for `d ≥ 0` —
exactly as the claim states — and, for every legitimate backend
enumeration, querying with a record identical to a corpus member (whose
numeric fields coerce) returns FIRST a result at squared distance 0 with
similarity score 1.0, whose index is SOME corpus row at distance 0 from
the query (a feature-identical row).  Which zero-distance row comes first
— the member itself, or a feature-identical duplicate such as
`c3_counterexample`'s — depends on the unspecified tie order. -/
theorem c3_similarity_formula :
    (similarity 0 = 1 ∧
     (∀ d : ℝ, 0 ≤ d → 0 < similarity d ∧ similarity d ≤ 1) ∧
     (∀ d e : ℝ, 0 ≤ d → d < e → similarity e < similarity d)) ∧
    (∀ (corpus : List Home) (st : FitState) (j : ℕ) (q : Home) (k : ℤ)
      (order : List (ℕ × ℚ)),
      fitMatcher corpus = .ok st → corpus.get? j = some q →
      numPresent q = true → 1 ≤ k → validOrder st (queryVals st q) order →
      ∃ hd tl, findSimilarIdx (some st) q corpus k order = .ok (hd :: tl) ∧
        hd.2 = 0 ∧ simOfSq hd.2 = 1 ∧ hd.1 < corpus.length ∧
        (st.fitX.map (fun r => distSqW st.varAdj (queryVals st q) r)).get? hd.1 =
          some 0) := by
  constructor
  · refine ⟨by unfold similarity; norm_num, ?_, ?_⟩
    · intro d hd
      unfold similarity
      constructor
      · positivity
      · rw [div_le_one (by linarith)]
        linarith
    · intro d e hd hde
      unfold similarity
      exact one_div_lt_one_div_of_lt (by linarith) (by linarith)
  · intro corpus st j q k order hfit hq hnum hk hord
    have hidx := findSimilarIdx_ok q k order hfit hk hnum
    set ds := st.fitX.map (fun r => distSqW st.varAdj (queryVals st q) r) with hdsdef
    have hdj : ds.get? j = some 0 := by
      rw [hdsdef, List.get?_map, fitX_get_queryVals hfit hq hnum]
      simp [distSqW_self]
    have hmem0 : ((j, (0 : ℚ)) ∈ order) := by
      apply hord.1.mem_iff.2
      show (j, (0 : ℚ)) ∈ neighborPairs st (queryVals st q)
      unfold neighborPairs
      rw [← hdsdef]
      simpa using withIdx_mem_of_get hdj 0
    obtain ⟨hd, tl, hcons⟩ : ∃ hd tl, order = hd :: tl := by
      cases hs : order with
      | nil => rw [hs] at hmem0; cases hmem0
      | cons a t => exact ⟨a, t, rfl⟩
    have hsorted := hord.2
    have hhead_le : ∀ p ∈ order, p = hd ∨ hd.2 ≤ p.2 := by
      intro p hp
      rw [hcons] at hp hsorted
      rcases List.mem_cons.1 hp with h | h
      · exact Or.inl h
      · exact Or.inr ((List.pairwise_cons.1 hsorted).1 p h)
    have hnonneg : ∀ p ∈ order, 0 ≤ p.2 := by
      intro p hp
      have hp2 : p ∈ neighborPairs st (queryVals st q) := hord.1.mem_iff.1 hp
      obtain ⟨_, _, hget⟩ := mem_withIdx hp2
      rw [Nat.sub_zero, List.get?_map] at hget
      cases hrow : st.fitX.get? p.1 with
      | none => rw [hrow] at hget; cases hget
      | some row =>
        rw [hrow] at hget
        injection hget with hget
        rw [← hget]
        exact distSqW_nonneg _ _ _ (varAdj_pos hfit)
    have hhd_mem : hd ∈ order := by
      rw [hcons]
      exact List.mem_cons_self _ _
    have hhd0 : hd.2 = 0 := by
      rcases hhead_le _ hmem0 with h | h
      · rw [← h]
      · exact le_antisymm h (hnonneg hd hhd_mem)
    have hhd_pair := mem_validOrder hord hhd_mem
    have hhd_lt : hd.1 < corpus.length := by
      have := hhd_pair.1
      rw [fitX_length hfit] at this
      exact this
    have hhd_get : ds.get? hd.1 = some 0 := by
      rw [hdsdef]
      rw [← hhd0]
      exact hhd_pair.2
    have hm1 : 1 ≤ (min k (corpus.length : ℤ)).toNat := by
      have h1 : 0 < corpus.length := List.length_pos.2 (fitMatcher_inv hfit).1
      omega
    obtain ⟨n, hn⟩ : ∃ n, (min k (corpus.length : ℤ)).toNat = n + 1 :=
      ⟨(min k (corpus.length : ℤ)).toNat - 1, by omega⟩
    refine ⟨hd, tl.take n, ?_, hhd0, ?_, hhd_lt, ?_⟩
    · rw [hidx, hn, hcons]
      rfl
    · rw [hhd0, simOfSq_zero]
    · exact hhd_get

/-- Witness for C3's amended theorem at a concrete input: the similarity
bounds at distance 1, and `corpusA` queried with its own first record
under the distance-sorted enumeration. -/
theorem c3_similarity_formula_witness :
    (0 < similarity 1 ∧ similarity 1 ≤ 1) ∧
    (∃ hd tl, findSimilarIdx (some stA) (mkHome 10 (.num 900)) corpusA 1
        [(0, 0), (1, 4)] = .ok (hd :: tl) ∧
      hd.2 = 0 ∧ simOfSq hd.2 = 1 ∧ hd.1 < corpusA.length ∧
      (stA.fitX.map
          (fun r => distSqW stA.varAdj (queryVals stA (mkHome 10 (.num 900))) r)).get?
        hd.1 = some 0) :=
  ⟨(c3_similarity_formula).1.2.1 1 (by norm_num),
   (c3_similarity_formula).2 corpusA stA 0 (mkHome 10 (.num 900)) 1 [(0, 0), (1, 4)]
     fitA_ok rfl (by rfl) (by decide)
     (by
       refine ⟨?_, ?_⟩
       · have hd2 : neighborPairs stA (queryVals stA (mkHome 10 (.num 900))) =
             [(0, 0), (1, 4)] := by
           have hqv : queryVals stA (mkHome 10 (.num 900)) =
               [10, 3, 2, 0, 0, 0, 0, 0] := rfl
           rw [hqv]
           unfold neighborPairs
           have hd : stA.fitX.map
               (fun r => distSqW stA.varAdj [10, 3, 2, 0, 0, 0, 0, 0] r) = [0, 4] := by
             norm_num [stA, distSqW, qsum, List.zipWith3]
           rw [hd]
           rfl
         rw [hd2]
       · decide)⟩
